import Mathlib

/-!
Shallow embedding of the coffee-lot intake backend (src/main.py): a Flask CRUD
service over a relational store, with two normalized name registries
(producers, drivers), a bay-assignment validator, and coffee-lot CRUD.

The relational store is modelled as an explicit state (three tables plus a
fresh-id counter for server-generated UUIDs).  JSON/Python values appearing in
request payloads and table cells are modelled by the PyVal type; Python dicts
by association lists.  Store errors (connection failures and the like) are
modelled by boolean error flags threaded through the handlers, mirroring the
try/except structure of the source: a raised flag makes the corresponding
database access raise, and the handler reacts exactly as the except branch in
the source does.
-/

/-- A calendar date as produced by datetime.date. -/
structure PyDate where
  year : Nat
  month : Nat
  day : Nat
deriving DecidableEq, Repr

/-- JSON/Python values that can appear in payload fields and table cells:
None/null, strings, integers, and parsed date objects. -/
inductive PyVal where
  | vnone
  | vstr (s : String)
  | vint (n : Int)
  | vdate (d : PyDate)
deriving DecidableEq, Repr

/-- Python dict with string keys, as an association list (first match wins). -/
abbrev Dict := List (String × PyVal)

/-- Python dict.get(k): the value at k, or None when the key is absent. -/
def dictGet (d : Dict) (k : String) : PyVal :=
  match d.find? (fun kv => kv.1 == k) with
  | some kv => kv.2
  | none => PyVal.vnone

/-- Python (k in d). -/
def dictHas (d : Dict) (k : String) : Bool :=
  d.any (fun kv => kv.1 == k)

/-- Python dict.get(k, default). -/
def dictGetD (d : Dict) (k : String) (v : PyVal) : PyVal :=
  match d.find? (fun kv => kv.1 == k) with
  | some kv => kv.2
  | none => v

/-- Python d[k] = v: replaces the value in place when the key exists,
appends the key otherwise (insertion-ordered dicts). -/
def dictSet (d : Dict) (k : String) (v : PyVal) : Dict :=
  if dictHas d k then d.map (fun kv => if kv.1 == k then (k, v) else kv)
  else d ++ [(k, v)]

/-- The key list of a dict, in order. -/
def dictKeys (d : Dict) : List String := d.map (fun kv => kv.1)

/-- Python truthiness of a value (used by the source in guards such as
checking producer_name before the registry upsert). -/
def pyTruthy : PyVal → Bool
  | PyVal.vnone => false
  | PyVal.vstr s => s ≠ ""
  | PyVal.vint n => n ≠ 0
  | PyVal.vdate _ => true

/-- Drop leading and trailing characters satisfying p. -/
def trimCharsBy (p : Char → Bool) (l : List Char) : List Char :=
  (((l.dropWhile p).reverse.dropWhile p).reverse)

/-- Python str.strip(): removes leading/trailing whitespace. -/
def pyStrip (s : String) : String := String.mk (trimCharsBy Char.isWhitespace s.data)

/-- SQL TRIM(x): removes leading/trailing space characters. -/
def sqlTrim (s : String) : String := String.mk (trimCharsBy (fun c => c == ' ') s.data)

/-- ASCII lowercasing of one character, as SQL LOWER and str.lower act on
the ASCII range used by the registries. -/
def lowerChar (c : Char) : Char :=
  if 65 ≤ c.toNat ∧ c.toNat ≤ 90 then Char.ofNat (c.toNat + 32) else c

/-- SQL LOWER(x). -/
def sqlLower (s : String) : String := String.mk (s.data.map lowerChar)

/-- The normalized-key expression of the functional unique indexes and of the
existence checks in the source: TRIM(LOWER(x)). -/
def codeKey (s : String) : String := sqlTrim (sqlLower s)

/-- The normalization rule as the spec states it: lowercase(trim(s)). -/
def specKey (s : String) : String := sqlLower (pyStrip s)

/-- A producer registry row: server-generated id, name, property name.
The source always inserts stripped values and an empty string for a missing
property. -/
structure ProducerRow where
  id : String
  name : String
  propertyName : String
deriving DecidableEq, Repr

/-- A driver registry row. -/
structure DriverRow where
  id : String
  name : String
deriving DecidableEq, Repr

/-- The relational store: the three tables plus a counter from which
server-side UUIDs are drawn.  A coffee-lot row is a dict holding the fixed
column list. -/
structure Store where
  coffeeLots : List Dict
  producers : List ProducerRow
  drivers : List DriverRow
  nextId : Nat
deriving DecidableEq, Repr

/-- The empty store. -/
def Store.empty : Store := ⟨[], [], [], 0⟩

/-- Server-side UUID generation, modelled as a deterministic stream. -/
def genId (n : Nat) : String := "uuid-" ++ toString n

/-- COFFEE_LOT_COLUMNS: the fixed column order of the coffee_lots table. -/
def COFFEE_LOT_COLUMNS : List String :=
  ["id", "lote_numero", "balanca", "caminhoneiro", "data_entrada",
   "qtd_lotes_veiculo", "boca_entrada", "situacao_cafe_veiculo", "safra",
   "nome_produtor", "nome_propriedade", "endereco", "telefone",
   "tipo_servico", "qtd_sacas", "peso_total_sacas_kg", "peso_total_bag_kg",
   "qtd_bags", "divisao_bags_kg", "peso_entrada_caminhao_kg", "fair_trade",
   "empresa", "status"]

/-- The row actually inserted by the INSERT statement: all columns in the
fixed order, with the dict value of each column (None when absent). -/
def rowOfDict (d : Dict) : Dict :=
  COFFEE_LOT_COLUMNS.map (fun c => (c, dictGet d c))

/-- SQL equality of a cell against a string constant (NULL compares false). -/
def sqlEqStr (v : PyVal) (t : String) : Bool := v == PyVal.vstr t

/-- SQL equality of a cell against an integer constant (NULL compares false). -/
def sqlEqInt (v : PyVal) (n : Int) : Bool := v == PyVal.vint n

/-- SQL inequality of a cell against a string constant (NULL compares false). -/
def sqlNeStr (v : PyVal) (t : String) : Bool :=
  match v with
  | PyVal.vstr s => s ≠ t
  | _ => false

/-- The result shape of validate_boca_entrada. -/
structure VResult where
  isValid : Bool
  message : String
deriving DecidableEq, Repr

/-- The out-of-range message of validate_boca_entrada. -/
def bocaRangeMsg : String := "Nº da Boca de Entrada deve ser entre 1 e 8."

/-- The occupied-bay message of validate_boca_entrada. -/
def bocaTakenMsg (b : Int) : String :=
  "Nº da Boca de Entrada " ++ toString b ++ " já está em uso por um lote ativo."

/-- The message returned when the occupancy query itself raises. -/
def bocaDbErrMsg : String := "Erro interno ao validar boca de entrada."

/-- The WHERE clause of the occupancy query: status = active, boca_entrada =
b, and, when a truthy current_lot_id was supplied, id different from it. -/
def occRowPred (b : Int) (exclude : Option String) (r : Dict) : Bool :=
  sqlEqStr (dictGet r "status") "active" &&
  sqlEqInt (dictGet r "boca_entrada") b &&
  (match exclude with
   | some c => if c == "" then true else sqlNeStr (dictGet r "id") c
   | none => true)

/-- validate_boca_entrada (src/main.py lines 254-287).  boca is the payload
value of boca_entrada exactly as data.get returned it; exclude is the
current_lot_id argument; vErr raises the occupancy query.  The source opens
with `if boca_num is None or not (1 <= boca_num <= 8)`, before any store
access: None short-circuits to the range message, an integer is compared,
and for any other value (a JSON string, a date) the comparison
1 <= boca_num raises TypeError, which nothing in the validator catches (its
try block only opens afterwards) - the answer none models that exception
escaping to the caller.  The exclusion clause is only added when
current_lot_id is truthy (a non-empty string). -/
def validate_boca_entrada (vErr : Bool) (boca : PyVal)
    (exclude : Option String) (s : Store) : Option VResult :=
  match boca with
  | PyVal.vnone => some ⟨false, bocaRangeMsg⟩
  | PyVal.vint b =>
    if b < 1 ∨ 8 < b then some ⟨false, bocaRangeMsg⟩
    else if vErr then some ⟨false, bocaDbErrMsg⟩
    else
      let taken := s.coffeeLots.any (occRowPred b exclude)
      if taken then some ⟨false, bocaTakenMsg b⟩ else some ⟨true, ""⟩
  | _ => none

/-- add_producer_if_not_exists (src/main.py lines 178-208).  The name and
property arguments arrive from JSON extraction as absent/null (none) or a
string; a blank name returns before any store access.  uErr raises the INSERT,
which the source catches and logs, leaving the table unchanged.  Otherwise the
INSERT ... ON CONFLICT (TRIM(LOWER(name)), TRIM(LOWER(property_name)))
DO NOTHING inserts the stripped values unless a row with the same normalized
key exists. -/
def add_producer_if_not_exists (uErr : Bool) (name propName : Option String)
    (s : Store) : Store :=
  match name with
  | none => s
  | some n =>
    if pyStrip n == "" then s
    else if uErr then s
    else
      let nn := pyStrip n
      let np := match propName with
                | none => ""
                | some p => pyStrip p
      if s.producers.any (fun r =>
          codeKey r.name == codeKey nn && codeKey r.propertyName == codeKey np)
      then s
      else { s with producers := s.producers ++ [⟨genId s.nextId, nn, np⟩],
                    nextId := s.nextId + 1 }

/-- add_driver_if_not_exists (src/main.py lines 211-235): as for producers but
keyed on TRIM(LOWER(name)) alone. -/
def add_driver_if_not_exists (uErr : Bool) (name : Option String)
    (s : Store) : Store :=
  match name with
  | none => s
  | some n =>
    if pyStrip n == "" then s
    else if uErr then s
    else
      let nn := pyStrip n
      if s.drivers.any (fun r => codeKey r.name == codeKey nn) then s
      else { s with drivers := s.drivers ++ [⟨genId s.nextId, nn⟩],
                    nextId := s.nextId + 1 }

/-- Numeric value of a digit character. -/
def digitVal (c : Char) : Nat := c.toNat - 48

/-- An ASCII decimal digit, the only characters the date parser accepts. -/
def isDigitC (c : Char) : Bool := 48 ≤ c.toNat && c.toNat ≤ 57

/-- Gregorian leap-year rule, as datetime implements it. -/
def isLeapYear (y : Nat) : Bool := (y % 4 == 0 && y % 100 != 0) || y % 400 == 0

/-- Days in a month, as datetime validates them. -/
def daysInMonth (y m : Nat) : Nat :=
  if m == 2 then (if isLeapYear y then 29 else 28)
  else if m == 4 || m == 6 || m == 9 || m == 11 then 30
  else 31

/-- date.fromisoformat: accepts exactly YYYY-MM-DD with a valid calendar
date (year 1-9999), returning none where Python raises ValueError. -/
def date_fromisoformat (s : String) : Option PyDate :=
  match s.data with
  | [y1, y2, y3, y4, h1, m1, m2, h2, d1, d2] =>
    if isDigitC y1 && isDigitC y2 && isDigitC y3 && isDigitC y4 && h1 == '-' &&
       isDigitC m1 && isDigitC m2 && h2 == '-' && isDigitC d1 && isDigitC d2 then
      let y := 1000 * digitVal y1 + 100 * digitVal y2 + 10 * digitVal y3 + digitVal y4
      let m := 10 * digitVal m1 + digitVal m2
      let dd := 10 * digitVal d1 + digitVal d2
      if 1 ≤ y ∧ 1 ≤ m ∧ m ≤ 12 ∧ 1 ≤ dd ∧ dd ≤ daysInMonth y m
      then some ⟨y, m, dd⟩
      else none
    else none
  | _ => none

/-- The last decimal digit of n, as a character. -/
def digitChar (n : Nat) : Char := Char.ofNat (48 + n % 10)

/-- date.isoformat: the YYYY-MM-DD rendering of a date. -/
def date_isoformat (d : PyDate) : String :=
  String.mk [digitChar (d.year / 1000), digitChar (d.year / 100),
             digitChar (d.year / 10), digitChar d.year, '-',
             digitChar (d.month / 10), digitChar d.month, '-',
             digitChar (d.day / 10), digitChar d.day]

/-- One cell of serialize_coffee_lot: only a date object stored under
data_entrada is converted, to its ISO string. -/
def serializeCell (k : String) (v : PyVal) : PyVal :=
  if k == "data_entrada" then
    match v with
    | PyVal.vdate dt => PyVal.vstr (date_isoformat dt)
    | w => w
  else v

/-- serialize_coffee_lot (src/main.py lines 244-252). -/
def serialize_coffee_lot (d : Dict) : Dict :=
  d.map (fun kv => (kv.1, serializeCell kv.1 kv.2))

/-- An HTTP response body: a JSON object, a JSON array, or the body Flask
produces for an exception that escapes the handler. -/
inductive Body where
  | obj (d : Dict)
  | arr (l : List Dict)
  | crash
deriving DecidableEq, Repr

/-- A message body, as every error response in the source builds one. -/
def msgBody (m : String) : Body := Body.obj [("message", PyVal.vstr m)]

/-- An HTTP response: status code and body. -/
structure HResp where
  status : Nat
  body : Body
deriving DecidableEq, Repr

/-- Store-error injection points for the lot handlers: vErr raises the bay
occupancy query, wErr raises the INSERT/UPDATE of coffee_lots, uErr raises
the registry INSERT inside the upsert helpers. -/
structure Errs where
  vErr : Bool
  wErr : Bool
  uErr : Bool
deriving DecidableEq, Repr

/-- All store operations succeed. -/
def Errs.ok : Errs := ⟨false, false, false⟩

/-- Outcome of the data_entrada parsing step shared by the create and update
handlers: the rewritten payload, a ValueError (400), or a TypeError that
escapes the handler (the except clause only catches ValueError). -/
inductive DateParse where
  | ok (p : Dict)
  | fmtErr
  | typeErr
deriving DecidableEq, Repr

/-- The malformed-date message. -/
def dateFmtMsg : String := "Formato de data inválido. Use YYYY-MM-DD."

/-- The data_entrada parsing step (src/main.py lines 339-343 and 395-399):
runs only when the key is present and truthy; a string is parsed with
date.fromisoformat and written back as a date object. -/
def parseDateField (p : Dict) : DateParse :=
  if dictHas p "data_entrada" && pyTruthy (dictGet p "data_entrada") then
    match dictGet p "data_entrada" with
    | PyVal.vstr ds =>
      match date_fromisoformat ds with
      | some dt => DateParse.ok (dictSet p "data_entrada" (PyVal.vdate dt))
      | none => DateParse.fmtErr
    | _ => DateParse.typeErr
  else DateParse.ok p

/-- A payload cell viewed as the string-or-None argument the upsert helpers
receive; none in the outer Option marks a value whose .strip() would raise. -/
def asStrOrNull (v : PyVal) : Option (Option String) :=
  match v with
  | PyVal.vstr s => some (some s)
  | PyVal.vnone => some none
  | _ => none

/-- The registry side effects of lot create/update (src/main.py lines 348-357
and 401-410): upsert the producer (with property) when nome_produtor is
truthy, then the driver when caminhoneiro is truthy.  Each upsert commits on
its own connection, so Except.error carries the store as already modified
before the exception. -/
def lotUpserts (uErr : Bool) (p : Dict) (s : Store) : Except Store Store :=
  let pv := dictGet p "nome_produtor"
  let step1 : Except Store Store :=
    if pyTruthy pv then
      match pv with
      | PyVal.vstr pn =>
        match asStrOrNull (dictGetD p "nome_propriedade" (PyVal.vstr "")) with
        | some propOpt => Except.ok (add_producer_if_not_exists uErr (some pn) propOpt s)
        | none => Except.error s
      | _ => Except.error s
    else Except.ok s
  match step1 with
  | Except.error s1 => Except.error s1
  | Except.ok s1 =>
    let dv := dictGet p "caminhoneiro"
    if pyTruthy dv then
      match dv with
      | PyVal.vstr dn => Except.ok (add_driver_if_not_exists uErr (some dn) s1)
      | _ => Except.error s1
    else Except.ok s1

/-- GET /api/coffee-lots/id (src/main.py lines 308-327): the first row whose
id column equals the path id, serialized, or 404. -/
def get_coffee_lot_by_id (lotId : String) (s : Store) : HResp :=
  match s.coffeeLots.find? (fun r => dictGet r "id" == PyVal.vstr lotId) with
  | some r => ⟨200, Body.obj (serialize_coffee_lot r)⟩
  | none => ⟨404, msgBody "Lote não encontrado"⟩

/-- POST /api/coffee-lots (src/main.py lines 329-383): bay validation on the
payload value of boca_entrada with no exclusion, date parsing, fresh id,
status defaulted when the key is absent, registry upserts, then the INSERT of
all columns in the fixed order; the 201 body is the payload dict as mutated,
serialized.  The validator is called outside the handler's try block, so a
TypeError it raises (a non-numeric bay value) escapes as an uncaught 500. -/
def add_coffee_lot (e : Errs) (payload : Dict) (s : Store) : HResp × Store :=
  match validate_boca_entrada e.vErr (dictGet payload "boca_entrada") none s with
  | none => (⟨500, Body.crash⟩, s)
  | some v =>
  if v.isValid == false then (⟨400, msgBody v.message⟩, s)
  else
    match parseDateField payload with
    | DateParse.fmtErr => (⟨400, msgBody dateFmtMsg⟩, s)
    | DateParse.typeErr => (⟨500, Body.crash⟩, s)
    | DateParse.ok p0 =>
      let lotId := genId s.nextId
      let s0 := { s with nextId := s.nextId + 1 }
      let p1 := dictSet p0 "id" (PyVal.vstr lotId)
      let p2 := dictSet p1 "status" (dictGetD p1 "status" (PyVal.vstr "active"))
      match lotUpserts e.uErr p2 s0 with
      | Except.error s1 => (⟨500, Body.crash⟩, s1)
      | Except.ok s1 =>
        if e.wErr then (⟨500, msgBody "Erro interno do servidor ao adicionar lote."⟩, s1)
        else (⟨201, Body.obj (serialize_coffee_lot p2)⟩,
              { s1 with coffeeLots := s1.coffeeLots ++ [rowOfDict p2] })

/-- One updated row: the columns in updCols are rewritten from the payload,
all others keep their value. -/
def applyRowUpdate (updCols : List String) (p : Dict) (r : Dict) : Dict :=
  r.map (fun kv => if updCols.contains kv.1 then (kv.1, dictGet p kv.1) else kv)

/-- The no-payload-columns message of the update handler. -/
def noUpdateDataMsg : String := "Nenhum dado fornecido para atualização."

/-- PUT /api/coffee-lots/id (src/main.py lines 385-448): bay validation on the
payload value of boca_entrada excluding the target id, date parsing, registry
upserts, then an UPDATE of exactly the payload columns on rows matching the
id; 404 when no row matched, otherwise the handler re-fetches the row through
the GET handler.  As in the create handler, the validator runs outside the
try block, so a TypeError from a non-numeric bay escapes as an uncaught
500. -/
def update_coffee_lot (e : Errs) (lotId : String) (payload : Dict) (s : Store) :
    HResp × Store :=
  match validate_boca_entrada e.vErr (dictGet payload "boca_entrada")
      (some lotId) s with
  | none => (⟨500, Body.crash⟩, s)
  | some v =>
  if v.isValid == false then (⟨400, msgBody v.message⟩, s)
  else
    match parseDateField payload with
    | DateParse.fmtErr => (⟨400, msgBody dateFmtMsg⟩, s)
    | DateParse.typeErr => (⟨500, Body.crash⟩, s)
    | DateParse.ok p0 =>
      match lotUpserts e.uErr p0 s with
      | Except.error s1 => (⟨500, Body.crash⟩, s1)
      | Except.ok s1 =>
        let updCols := COFFEE_LOT_COLUMNS.filter (fun c => dictHas p0 c)
        if updCols.isEmpty then (⟨400, msgBody noUpdateDataMsg⟩, s1)
        else if e.wErr then
          (⟨500, msgBody "Erro interno do servidor ao atualizar lote."⟩, s1)
        else
          let matched := s1.coffeeLots.any (fun r => dictGet r "id" == PyVal.vstr lotId)
          let s2 := { s1 with coffeeLots := s1.coffeeLots.map (fun r =>
                        if dictGet r "id" == PyVal.vstr lotId
                        then applyRowUpdate updCols p0 r else r) }
          if matched == false then (⟨404, msgBody "Lote não encontrado"⟩, s2)
          else (get_coffee_lot_by_id lotId s2, s2)

/-- The empty-name message of POST /api/producers. -/
def producerEmptyMsg : String := "O nome do produtor não pode ser vazio."

/-- The duplicate message of POST /api/producers. -/
def producerConflictMsg : String := "Produtor com o mesmo nome e propriedade já existe."

/-- POST /api/producers (src/main.py lines 495-535): rejects a missing, empty
or whitespace-only name with 400; a non-string name or property raises before
the try block (escaping the handler); otherwise the stripped values are
compared against every row under TRIM(LOWER(x)) and a match answers 409,
else the row is inserted and the 201 body carries the generated id and the
stripped values. -/
def add_single_producer (payload : Dict) (s : Store) : HResp × Store :=
  let nameV := dictGet payload "name"
  let propV := dictGetD payload "property" (PyVal.vstr "")
  if pyTruthy nameV == false then (⟨400, msgBody producerEmptyMsg⟩, s)
  else
    match nameV with
    | PyVal.vstr n =>
      if pyStrip n == "" then (⟨400, msgBody producerEmptyMsg⟩, s)
      else
        match propV with
        | PyVal.vstr p0 =>
          let nn := pyStrip n
          let np := pyStrip p0
          if s.producers.any (fun r =>
              codeKey r.name == codeKey nn && codeKey r.propertyName == codeKey np)
          then (⟨409, msgBody producerConflictMsg⟩, s)
          else
            (⟨201, Body.obj [("id", PyVal.vstr (genId s.nextId)),
                             ("name", PyVal.vstr nn),
                             ("property", PyVal.vstr np)]⟩,
             { s with producers := s.producers ++ [⟨genId s.nextId, nn, np⟩],
                      nextId := s.nextId + 1 })
        | PyVal.vnone =>
          let nn := pyStrip n
          if s.producers.any (fun r =>
              codeKey r.name == codeKey nn && codeKey r.propertyName == codeKey "")
          then (⟨409, msgBody producerConflictMsg⟩, s)
          else
            (⟨201, Body.obj [("id", PyVal.vstr (genId s.nextId)),
                             ("name", PyVal.vstr nn),
                             ("property", PyVal.vstr "")]⟩,
             { s with producers := s.producers ++ [⟨genId s.nextId, nn, ""⟩],
                      nextId := s.nextId + 1 })
        | _ => (⟨500, Body.crash⟩, s)
    | _ => (⟨500, Body.crash⟩, s)

/-- The empty-name message of POST /api/drivers. -/
def driverEmptyMsg : String := "O nome do caminhoneiro não pode ser vazio."

/-- The duplicate message of POST /api/drivers. -/
def driverConflictMsg : String := "Caminhoneiro com o mesmo nome já existe."

/-- POST /api/drivers (src/main.py lines 645-680): as for producers, keyed on
the name alone. -/
def add_single_driver (payload : Dict) (s : Store) : HResp × Store :=
  let nameV := dictGet payload "name"
  if pyTruthy nameV == false then (⟨400, msgBody driverEmptyMsg⟩, s)
  else
    match nameV with
    | PyVal.vstr n =>
      if pyStrip n == "" then (⟨400, msgBody driverEmptyMsg⟩, s)
      else
        let nn := pyStrip n
        if s.drivers.any (fun r => codeKey r.name == codeKey nn)
        then (⟨409, msgBody driverConflictMsg⟩, s)
        else
          (⟨201, Body.obj [("id", PyVal.vstr (genId s.nextId)),
                           ("name", PyVal.vstr nn)]⟩,
           { s with drivers := s.drivers ++ [⟨genId s.nextId, nn⟩],
                    nextId := s.nextId + 1 })
    | _ => (⟨500, Body.crash⟩, s)

/-- The loop body of the producer import (src/main.py lines 593-612): entries
with a name key are stripped; blank names are skipped without any tally; the
INSERT ... ON CONFLICT DO NOTHING bumps the added count when a row was
inserted and the existing count otherwise.  A non-string name or property
raises inside the try block (answer none), rolling back the uncommitted
transaction. -/
def importLoop : List Dict → Store → Nat → Nat → Option (Store × Nat × Nat)
  | [], s, a, u => some (s, a, u)
  | it :: rest, s, a, u =>
    if dictHas it "name" then
      match dictGet it "name" with
      | PyVal.vstr nraw =>
        match dictGetD it "property" (PyVal.vstr "") with
        | PyVal.vstr praw =>
          let name := pyStrip nraw
          let prop := pyStrip praw
          if name == "" then importLoop rest s a u
          else if s.producers.any (fun r =>
              codeKey r.name == codeKey name && codeKey r.propertyName == codeKey prop)
          then importLoop rest s a (u + 1)
          else importLoop rest
            { s with producers := s.producers ++ [⟨genId s.nextId, name, prop⟩],
                     nextId := s.nextId + 1 } (a + 1) u
        | _ => none
      | _ => none
    else importLoop rest s a u

/-- The summary message of the import endpoint. -/
def importResultMsg (a u : Nat) : String :=
  "Importação concluída. " ++ toString a ++ " novos produtores adicionados, " ++
    toString u ++ " produtores existentes (não atualizados)."

/-- POST /api/producers/import (src/main.py lines 579-622) on a JSON array of
objects: runs the loop and reports both tallies; an exception inside the loop
answers 500 and commits nothing. -/
def import_producer_names (items : List Dict) (s : Store) : HResp × Store :=
  match importLoop items s 0 0 with
  | some (s1, a, u) => (⟨200, msgBody (importResultMsg a u)⟩, s1)
  | none =>
    (⟨500, msgBody "Erro interno do servidor ao importar nomes de produtores."⟩, s)

/-! Helper lemmas about the embedded primitives. -/

theorem sqlEqStr_iff (v : PyVal) (t : String) :
    sqlEqStr v t = true ↔ v = PyVal.vstr t := by
  simp [sqlEqStr]

theorem sqlEqInt_iff (v : PyVal) (n : Int) :
    sqlEqInt v n = true ↔ v = PyVal.vint n := by
  simp [sqlEqInt]

theorem sqlNeStr_iff (v : PyVal) (t : String) :
    sqlNeStr v t = true ↔ ∃ u, v = PyVal.vstr u ∧ u ≠ t := by
  cases v <;> simp [sqlNeStr]

/-- Every coffee-lot row carries a string id, as every row written by the
application does (id is the VARCHAR primary key). -/
def idsAreStrings (s : Store) : Bool :=
  s.coffeeLots.all (fun r =>
    match dictGet r "id" with
    | PyVal.vstr _ => true
    | _ => false)

theorem idString_of {v : PyVal}
    (h : (match v with | PyVal.vstr _ => true | _ => false) = true) :
    ∃ u, v = PyVal.vstr u := by
  cases v <;> simp at h ⊢

theorem occRowPred_iff (b : Int) (excl : Option String) (r : Dict)
    (hexcl : excl ≠ some "") (hid : ∃ u, dictGet r "id" = PyVal.vstr u) :
    occRowPred b excl r = true ↔
      (dictGet r "status" = PyVal.vstr "active" ∧
       dictGet r "boca_entrada" = PyVal.vint b ∧
       ∀ c, excl = some c → dictGet r "id" ≠ PyVal.vstr c) := by
  obtain ⟨u, hu⟩ := hid
  cases excl with
  | none => simp [occRowPred, sqlEqStr, sqlEqInt]
  | some c =>
    have hc : c ≠ "" := by intro h; exact hexcl (by rw [h])
    simp [occRowPred, sqlEqStr, sqlEqInt, sqlNeStr, hu, hc, and_assoc]

/-- C1 (amended): the bay validator validate(bayNumber, excludeLotId?) is
invalid with a message citing the range 1..8 when bayNumber is absent (None)
or an integer outside 1..8, regardless of store contents (and even when the
store is failing); for an integer bayNumber in 1..8 it answers, and is
invalid exactly when some lot with status active and that bay number exists
whose id differs from excludeLotId, so an active lot occupying bay b makes
validate(b) invalid for a new lot while validate(b, excludeId of that lot)
is valid.  But for a bayNumber that is neither None nor a number - a JSON
string, say - the range comparison raises TypeError, which escapes the
validator: no invalid-with-range-message answer is produced. -/
theorem C1_bay_validator (vErr : Bool) (boca : PyVal) (excl : Option String)
    (s : Store) (hexcl : excl ≠ some "") (hids : idsAreStrings s = true) :
    (boca = PyVal.vnone →
        validate_boca_entrada vErr boca excl s = some ⟨false, bocaRangeMsg⟩)
    ∧ (∀ b, boca = PyVal.vint b → (b < 1 ∨ 8 < b) →
        validate_boca_entrada vErr boca excl s = some ⟨false, bocaRangeMsg⟩)
    ∧ (∀ b, boca = PyVal.vint b → 1 ≤ b → b ≤ 8 →
        ∃ v, validate_boca_entrada false boca excl s = some v ∧
          (v.isValid = false ↔
            ∃ r ∈ s.coffeeLots, dictGet r "status" = PyVal.vstr "active" ∧
              dictGet r "boca_entrada" = PyVal.vint b ∧
              ∀ c, excl = some c → dictGet r "id" ≠ PyVal.vstr c))
    ∧ (∀ str, boca = PyVal.vstr str →
        validate_boca_entrada vErr boca excl s = none) := by
  refine ⟨?_, ?_, ?_, ?_⟩
  · intro h; subst h; rfl
  · intro b hb hrange; subst hb
    simp only [validate_boca_entrada]
    rw [if_pos hrange]
  · intro b hb h1 h8; subst hb
    simp only [validate_boca_entrada]
    rw [if_neg (by omega)]
    have hidr : ∀ r ∈ s.coffeeLots, ∃ u, dictGet r "id" = PyVal.vstr u := by
      intro r hr
      exact idString_of ((List.all_eq_true.mp hids) r hr)
    by_cases htaken : s.coffeeLots.any (occRowPred b excl) = true
    · simp only [htaken, if_true, if_false, Bool.false_eq_true]
      refine ⟨⟨false, bocaTakenMsg b⟩, rfl, ?_⟩
      constructor
      · intro _
        rw [List.any_eq_true] at htaken
        obtain ⟨r, hr, hpred⟩ := htaken
        exact ⟨r, hr, (occRowPred_iff b excl r hexcl (hidr r hr)).mp hpred⟩
      · intro _; trivial
    · simp only [Bool.not_eq_true] at htaken
      simp only [htaken, Bool.false_eq_true, if_false]
      refine ⟨⟨true, ""⟩, rfl, ?_⟩
      constructor
      · intro h; exact absurd h (by simp)
      · rintro ⟨r, hr, hprops⟩
        have : occRowPred b excl r = true :=
          (occRowPred_iff b excl r hexcl (hidr r hr)).mpr hprops
        rw [List.any_eq_false] at htaken
        exact absurd this (by simpa using htaken r hr)
  · intro str h; subst h; rfl

/-- A coffee-lot row as the application inserts it: active lot in bay 3. -/
def demoLotRow : Dict :=
  rowOfDict [("id", PyVal.vstr "uuid-9"), ("boca_entrada", PyVal.vint 3),
             ("status", PyVal.vstr "active"), ("lote_numero", PyVal.vstr "7")]

/-- A store holding the single demo lot. -/
def demoStore : Store := ⟨[demoLotRow], [], [], 10⟩

theorem C1_bay_validator_witness :
    ∃ v, validate_boca_entrada false (PyVal.vint 3) (some "uuid-9") demoStore
        = some v ∧
      (v.isValid = false ↔
        ∃ r ∈ demoStore.coffeeLots, dictGet r "status" = PyVal.vstr "active" ∧
          dictGet r "boca_entrada" = PyVal.vint 3 ∧
          ∀ c, (some "uuid-9" : Option String) = some c →
            dictGet r "id" ≠ PyVal.vstr c) :=
  (C1_bay_validator false (PyVal.vint 3) (some "uuid-9") demoStore (by decide)
    (by decide)).2.2.1 3 rfl (by decide) (by decide)

/-- C1 counterexample: the string bay number 9 is a bayNumber that is not an
integer in 1..8, yet the validator does not answer invalid with the range
message: the comparison 1 <= boca raises TypeError, the exception escapes
(answer none), and a POST carrying it dies as an uncaught 500 with no
message body, the store untouched. -/
theorem C1_counterexample_string_bay :
    validate_boca_entrada false (PyVal.vstr "9") none demoStore = none
    ∧ add_coffee_lot Errs.ok [("boca_entrada", PyVal.vstr "9")] demoStore
        = (⟨500, Body.crash⟩, demoStore) := by
  exact ⟨rfl, rfl⟩

theorem sqlLower_eq_empty_iff (x : String) : sqlLower x = "" ↔ x = "" := by
  constructor
  · intro h
    have h2 : x.data.map lowerChar = [] := congrArg String.data h
    simp only [List.map_eq_nil_iff] at h2
    exact String.ext (by simpa using h2)
  · intro h; subst h; rfl

/-- The property argument of the producer upsert, with an absent or null
property standing for the empty string. -/
def propOrEmpty : Option String → String
  | none => ""
  | some p => p

theorem propOrEmpty_strip (p : Option String) :
    (match p with
     | none => ""
     | some q => pyStrip q) = pyStrip (propOrEmpty p) := by
  cases p <;> rfl

theorem codeKey_of_specKey {a b : String} (h : specKey a = specKey b) :
    codeKey (pyStrip a) = codeKey (pyStrip b) := by
  unfold specKey at h
  unfold codeKey
  rw [h]

/-- C3: upsertIfAbsent is idempotent and normalization-insensitive, for both
registries: two calls whose arguments agree after trim plus lowercase
(including two identical calls) target the same entity, the second call being
a silent no-op that changes nothing; and when no row with the normalized key
was present, the first call leaves exactly one row with that key. -/
theorem C3_upsert_idempotent_normalized (s : Store) (n1 n2 : String)
    (p1 p2 : Option String)
    (hn : specKey n1 = specKey n2)
    (hp : specKey (propOrEmpty p1) = specKey (propOrEmpty p2)) :
    (add_producer_if_not_exists false (some n2) p2
        (add_producer_if_not_exists false (some n1) p1 s) =
      add_producer_if_not_exists false (some n1) p1 s)
    ∧ (pyStrip n1 ≠ "" →
        s.producers.countP (fun r =>
            codeKey r.name == codeKey (pyStrip n1) &&
            codeKey r.propertyName == codeKey (pyStrip (propOrEmpty p1))) = 0 →
        (add_producer_if_not_exists false (some n1) p1 s).producers.countP (fun r =>
            codeKey r.name == codeKey (pyStrip n1) &&
            codeKey r.propertyName == codeKey (pyStrip (propOrEmpty p1))) = 1)
    ∧ (add_driver_if_not_exists false (some n2)
        (add_driver_if_not_exists false (some n1) s) =
      add_driver_if_not_exists false (some n1) s)
    ∧ (pyStrip n1 ≠ "" →
        s.drivers.countP (fun r => codeKey r.name == codeKey (pyStrip n1)) = 0 →
        (add_driver_if_not_exists false (some n1) s).drivers.countP
            (fun r => codeKey r.name == codeKey (pyStrip n1)) = 1) := by
  have hkey : codeKey (pyStrip n2) = codeKey (pyStrip n1) :=
    codeKey_of_specKey hn.symm
  have hpkey : codeKey (pyStrip (propOrEmpty p2)) = codeKey (pyStrip (propOrEmpty p1)) :=
    codeKey_of_specKey hp.symm
  refine ⟨?_, ?_, ?_, ?_⟩
  · by_cases hblank : pyStrip n1 = ""
    · have hb2 : pyStrip n2 = "" := by
        have : specKey n2 = "" := by
          rw [← hn]; unfold specKey; rw [hblank]; rfl
        unfold specKey at this
        exact (sqlLower_eq_empty_iff _).mp this
      simp [add_producer_if_not_exists, hblank, hb2]
    · have hb2 : pyStrip n2 ≠ "" := by
        intro h
        apply hblank
        have : specKey n1 = "" := by
          rw [hn]; unfold specKey; rw [h]; rfl
        unfold specKey at this
        exact (sqlLower_eq_empty_iff _).mp this
      simp only [add_producer_if_not_exists, propOrEmpty_strip, hkey, hpkey,
        beq_iff_eq, hblank, hb2]
      by_cases hex : s.producers.any (fun r =>
          codeKey r.name == codeKey (pyStrip n1) &&
          codeKey r.propertyName == codeKey (pyStrip (propOrEmpty p1))) = true
      · simp [hblank, hb2, hex]
      · simp only [Bool.not_eq_true] at hex
        simp [hblank, hb2, hex, List.any_append]
  · intro hblank hcount
    simp only [add_producer_if_not_exists, propOrEmpty_strip, hblank]
    have hex : s.producers.any (fun r =>
        codeKey r.name == codeKey (pyStrip n1) &&
        codeKey r.propertyName == codeKey (pyStrip (propOrEmpty p1))) = false := by
      rw [List.any_eq_false]
      intro r hr
      have := List.countP_eq_zero.mp hcount r hr
      simpa using this
    simp [hblank, hex, List.countP_append, hcount]
  · by_cases hblank : pyStrip n1 = ""
    · have hb2 : pyStrip n2 = "" := by
        have : specKey n2 = "" := by
          rw [← hn]; unfold specKey; rw [hblank]; rfl
        unfold specKey at this
        exact (sqlLower_eq_empty_iff _).mp this
      simp [add_driver_if_not_exists, hblank, hb2]
    · have hb2 : pyStrip n2 ≠ "" := by
        intro h
        apply hblank
        have : specKey n1 = "" := by
          rw [hn]; unfold specKey; rw [h]; rfl
        unfold specKey at this
        exact (sqlLower_eq_empty_iff _).mp this
      by_cases hex : s.drivers.any
          (fun r => codeKey r.name == codeKey (pyStrip n1)) = true
      · simp [add_driver_if_not_exists, hblank, hb2, hkey, hex]
      · simp only [Bool.not_eq_true] at hex
        simp [add_driver_if_not_exists, hblank, hb2, hkey, hex, List.any_append]
  · intro hblank hcount
    have hex : s.drivers.any
        (fun r => codeKey r.name == codeKey (pyStrip n1)) = false := by
      rw [List.any_eq_false]
      intro r hr
      have := List.countP_eq_zero.mp hcount r hr
      simpa using this
    simp [add_driver_if_not_exists, hblank, hex, List.countP_append, hcount]

theorem C3_upsert_idempotent_normalized_witness :
    add_producer_if_not_exists false (some "maria") (some "farm")
        (add_producer_if_not_exists false (some "Maria ") (some " Farm") Store.empty) =
      add_producer_if_not_exists false (some "Maria ") (some " Farm") Store.empty :=
  (C3_upsert_idempotent_normalized Store.empty "Maria " "maria"
    (some " Farm") (some "farm") (by decide) (by decide)).1

/-! General lemmas about dict operations. -/

theorem find?_set_map_ne (k k2 : String) (v : PyVal) (d : Dict)
    (h : (k == k2) = false) :
    (d.map (fun kv => if kv.1 == k then (k, v) else kv)).find?
        (fun kv => kv.1 == k2) =
      d.find? (fun kv => kv.1 == k2) := by
  induction d with
  | nil => rfl
  | cons a t ih =>
    obtain ⟨a1, a2⟩ := a
    rw [List.map_cons]
    by_cases ha : (a1 == k) = true
    · have hak : a1 = k := by simpa using ha
      subst hak
      rw [if_pos ha]
      simp only [List.find?_cons]
      rw [h]
      exact ih
    · simp only [Bool.not_eq_true] at ha
      rw [if_neg (by simp [ha])]
      simp only [List.find?_cons]
      by_cases hb : (a1 == k2) = true
      · rw [hb]
      · simp only [Bool.not_eq_true] at hb
        rw [hb]
        exact ih

theorem find?_set_map_self (k : String) (v : PyVal) (d : Dict)
    (hhas : dictHas d k = true) :
    (d.map (fun kv => if kv.1 == k then (k, v) else kv)).find?
        (fun kv => kv.1 == k) = some (k, v) := by
  induction d with
  | nil => simp [dictHas] at hhas
  | cons a t ih =>
    obtain ⟨a1, a2⟩ := a
    rw [List.map_cons]
    by_cases ha : (a1 == k) = true
    · rw [if_pos ha]
      simp only [List.find?_cons]
      rw [beq_self_eq_true]
    · simp only [Bool.not_eq_true] at ha
      have hh : dictHas t k = true := by
        simp only [dictHas, List.any_cons, ha, Bool.false_or] at hhas
        exact hhas
      rw [if_neg (by simp [ha])]
      simp only [List.find?_cons]
      rw [ha]
      exact ih hh

theorem dictGet_dictSet_self (d : Dict) (k : String) (v : PyVal) :
    dictGet (dictSet d k v) k = v := by
  unfold dictSet
  by_cases hhas : dictHas d k = true
  · rw [if_pos hhas]
    unfold dictGet
    rw [find?_set_map_self k v d hhas]
  · simp only [Bool.not_eq_true] at hhas
    rw [if_neg (by simp [hhas])]
    unfold dictGet
    rw [List.find?_append]
    have hnone : d.find? (fun kv => kv.1 == k) = none := by
      rw [List.find?_eq_none]
      intro kv hkv hbeq
      have : dictHas d k = true := by
        unfold dictHas
        rw [List.any_eq_true]
        exact ⟨kv, hkv, hbeq⟩
      rw [hhas] at this; cases this
    simp [hnone, List.find?_cons]

theorem dictGet_dictSet_ne (d : Dict) (k v k2) (h : (k == k2) = false) :
    dictGet (dictSet d k v) k2 = dictGet d k2 := by
  unfold dictSet
  by_cases hhas : dictHas d k = true
  · rw [if_pos hhas]
    unfold dictGet
    rw [find?_set_map_ne k k2 v d h]
  · simp only [Bool.not_eq_true] at hhas
    rw [if_neg (by simp [hhas])]
    unfold dictGet
    rw [List.find?_append]
    cases hf : d.find? (fun kv => kv.1 == k2) with
    | some kv => simp [hf]
    | none => simp [hf, List.find?_cons, h]

theorem dictHas_dictSet (d : Dict) (k v k2) :
    dictHas (dictSet d k v) k2 = (dictHas d k2 || (k == k2)) := by
  unfold dictSet
  by_cases hhas : dictHas d k = true
  · rw [if_pos hhas]
    unfold dictHas
    rw [List.any_map]
    by_cases hk : (k == k2) = true
    · have : k = k2 := by simpa using hk
      subst this
      simp only [hk, Bool.or_true]
      rw [List.any_eq_true]
      unfold dictHas at hhas
      rw [List.any_eq_true] at hhas
      obtain ⟨kv, hkv, hbeq⟩ := hhas
      exact ⟨kv, hkv, by simp [Function.comp, hbeq]⟩
    · simp only [Bool.not_eq_true] at hk
      simp only [hk, Bool.or_false]
      congr 1
      funext kv
      simp only [Function.comp]
      by_cases ha : (kv.1 == k) = true
      · simp [ha, hk]
        have : kv.1 = k := by simpa using ha
        simp [this, (by simpa using hk : ¬k = k2)]
      · simp only [Bool.not_eq_true] at ha
        simp [ha]
  · simp only [Bool.not_eq_true] at hhas
    rw [if_neg (by simp [hhas])]
    unfold dictHas
    rw [List.any_append]
    simp [List.any_cons]

theorem dictGet_ne_none_has (d : Dict) (k : String)
    (h : dictGet d k ≠ PyVal.vnone) : dictHas d k = true := by
  unfold dictGet at h
  cases hf : d.find? (fun kv => kv.1 == k) with
  | none => rw [hf] at h; simp at h
  | some kv =>
    unfold dictHas
    rw [List.any_eq_true]
    have hmem := List.find?_some hf
    exact ⟨kv, List.mem_of_find?_eq_some hf, hmem⟩

theorem dictGet_serialize (d : Dict) (k : String) :
    dictGet (serialize_coffee_lot d) k = serializeCell k (dictGet d k) := by
  induction d with
  | nil =>
    show PyVal.vnone = serializeCell k PyVal.vnone
    unfold serializeCell
    split
    · rfl
    · rfl
  | cons a t ih =>
    obtain ⟨a1, a2⟩ := a
    unfold serialize_coffee_lot dictGet
    rw [List.map_cons]
    by_cases ha : (a1 == k) = true
    · have hak : a1 = k := by simpa using ha
      subst hak
      simp only [List.find?_cons]
      rw [beq_self_eq_true]
    · simp only [Bool.not_eq_true] at ha
      simp only [List.find?_cons]
      rw [ha]
      exact ih

theorem dictKeys_serialize (d : Dict) :
    dictKeys (serialize_coffee_lot d) = dictKeys d := by
  unfold dictKeys serialize_coffee_lot
  rw [List.map_map]
  rfl

theorem dictKeys_dictSet (d : Dict) (k : String) (v : PyVal) :
    dictKeys (dictSet d k v) =
      if dictHas d k then dictKeys d else dictKeys d ++ [k] := by
  unfold dictSet
  by_cases hhas : dictHas d k = true
  · rw [if_pos hhas, if_pos hhas]
    unfold dictKeys
    rw [List.map_map]
    apply List.map_congr_left
    intro kv _
    simp only [Function.comp]
    by_cases ha : (kv.1 == k) = true
    · simp [ha]; exact (by simpa using ha : kv.1 = k).symm
    · simp only [Bool.not_eq_true] at ha
      simp [ha]
  · simp only [Bool.not_eq_true] at hhas
    rw [if_neg (by simp [hhas]), if_neg (by simp [hhas])]
    unfold dictKeys
    simp

theorem dictGet_mapCols (cols : List String) (d : Dict) (c : String)
    (h : c ∈ cols) :
    dictGet (cols.map (fun c2 => (c2, dictGet d c2))) c = dictGet d c := by
  induction cols with
  | nil => cases h
  | cons a t ih =>
    by_cases ha : (a == c) = true
    · have : a = c := by simpa using ha
      subst this
      simp [dictGet, List.find?_cons]
    · simp only [Bool.not_eq_true] at ha
      have hm : c ∈ t := by
        cases List.mem_cons.mp h with
        | inl he => exact absurd he.symm (by simpa using ha)
        | inr hm => exact hm
      unfold dictGet
      simp only [List.map_cons, List.find?_cons, ha]
      exact ih hm

/-- A payload cell holding no usable name: absent/null, or a string that is
empty or whitespace-only. -/
def blankVal : PyVal → Bool
  | PyVal.vnone => true
  | PyVal.vstr t => pyStrip t == ""
  | _ => false

theorem add_producer_blank (u : Bool) (n : String) (p : Option String) (s : Store)
    (h : pyStrip n = "") : add_producer_if_not_exists u (some n) p s = s := by
  simp [add_producer_if_not_exists, h]

theorem add_driver_blank (u : Bool) (n : String) (s : Store)
    (h : pyStrip n = "") : add_driver_if_not_exists u (some n) s = s := by
  simp [add_driver_if_not_exists, h]

theorem lotUpserts_blank (u : Bool) (p : Dict) (s : Store)
    (hp : blankVal (dictGet p "nome_produtor") = true)
    (hd : blankVal (dictGet p "caminhoneiro") = true) :
    lotUpserts u p s = Except.ok s ∨ lotUpserts u p s = Except.error s := by
  have hdrv : ∀ s1 : Store,
      (if pyTruthy (dictGet p "caminhoneiro") then
        match dictGet p "caminhoneiro" with
        | PyVal.vstr dn => Except.ok (add_driver_if_not_exists u (some dn) s1)
        | _ => Except.error s1
       else Except.ok s1) = Except.ok s1 := by
    intro s1
    cases hdv : dictGet p "caminhoneiro" with
    | vnone => simp [pyTruthy]
    | vstr t =>
      rw [hdv] at hd
      have hts : pyStrip t = "" := by simpa [blankVal] using hd
      by_cases ht : t = ""
      · simp [pyTruthy, ht]
      · simp [pyTruthy, ht, add_driver_blank u t s1 hts]
    | vint n => rw [hdv] at hd; simp [blankVal] at hd
    | vdate dt => rw [hdv] at hd; simp [blankVal] at hd
  unfold lotUpserts
  cases hpv : dictGet p "nome_produtor" with
  | vnone =>
    left
    simp only [hpv, pyTruthy, Bool.false_eq_true, if_false]
    exact hdrv s
  | vstr tp =>
    rw [hpv] at hp
    have hps : pyStrip tp = "" := by simpa [blankVal] using hp
    by_cases htp : tp = ""
    · left
      simp only [hpv, htp, pyTruthy]
      simp only [ne_eq, not_true_eq_false, decide_False, Bool.false_eq_true, if_false]
      exact hdrv s
    · cases hprop : asStrOrNull (dictGetD p "nome_propriedade" (PyVal.vstr "")) with
      | some propOpt =>
        left
        simp only [hpv, hprop, pyTruthy]
        rw [if_pos (by simpa using htp)]
        rw [add_producer_blank u tp propOpt s hps]
        exact hdrv s
      | none =>
        right
        simp only [hpv, hprop, pyTruthy]
        rw [if_pos (by simpa using htp)]
  | vint n => rw [hpv] at hp; simp [blankVal] at hp
  | vdate dt => rw [hpv] at hp; simp [blankVal] at hp

theorem parseDateField_ok_shape (p q : Dict) (h : parseDateField p = DateParse.ok q) :
    q = p ∨ ∃ dt, q = dictSet p "data_entrada" (PyVal.vdate dt) := by
  unfold parseDateField at h
  by_cases hc : (dictHas p "data_entrada" && pyTruthy (dictGet p "data_entrada")) = true
  · rw [if_pos hc] at h
    cases hv : dictGet p "data_entrada" with
    | vstr ds =>
      rw [hv] at h
      dsimp only at h
      cases hfd : date_fromisoformat ds with
      | some dt =>
        rw [hfd] at h
        exact Or.inr ⟨dt, (DateParse.ok.inj h).symm⟩
      | none => rw [hfd] at h; cases h
    | vnone => rw [hv] at h; cases h
    | vint n => rw [hv] at h; cases h
    | vdate dt => rw [hv] at h; cases h
  · rw [if_neg hc] at h
    exact Or.inl (DateParse.ok.inj h).symm

theorem parseDateField_ok_get_ne (p q : Dict) (k : String)
    (h : parseDateField p = DateParse.ok q)
    (hk : (("data_entrada" : String) == k) = false) :
    dictGet q k = dictGet p k := by
  rcases parseDateField_ok_shape p q h with rfl | ⟨dt, rfl⟩
  · rfl
  · exact dictGet_dictSet_ne p "data_entrada" (PyVal.vdate dt) k hk

/-- C10: upsertIfAbsent called with an absent, empty, or whitespace-only name
returns immediately without touching the store and without error, for both
producers and drivers; consequently creating or updating a lot whose producer
and driver names are blank never inserts a producer or driver registry row. -/
theorem C10_blank_upsert_noop :
    (∀ u p s, add_producer_if_not_exists u none p s = s)
    ∧ (∀ u n p s, pyStrip n = "" → add_producer_if_not_exists u (some n) p s = s)
    ∧ (∀ u s, add_driver_if_not_exists u none s = s)
    ∧ (∀ u n s, pyStrip n = "" → add_driver_if_not_exists u (some n) s = s)
    ∧ (∀ e payload s lotId,
        blankVal (dictGet payload "nome_produtor") = true →
        blankVal (dictGet payload "caminhoneiro") = true →
        (add_coffee_lot e payload s).2.producers = s.producers
        ∧ (add_coffee_lot e payload s).2.drivers = s.drivers
        ∧ (update_coffee_lot e lotId payload s).2.producers = s.producers
        ∧ (update_coffee_lot e lotId payload s).2.drivers = s.drivers) := by
  refine ⟨fun u p s => rfl, fun u n p s h => add_producer_blank u n p s h,
    fun u s => rfl, fun u n s h => add_driver_blank u n s h, ?_⟩
  intro e payload s lotId hp hd
  have hadd : (add_coffee_lot e payload s).2.producers = s.producers
      ∧ (add_coffee_lot e payload s).2.drivers = s.drivers := by
    unfold add_coffee_lot
    by_cases hnn : validate_boca_entrada e.vErr (dictGet payload "boca_entrada")
        none s = none
    · simp only [hnn]; exact ⟨by trivial, by trivial⟩
    obtain ⟨v, hvv⟩ := Option.ne_none_iff_exists'.mp hnn
    simp only [hvv]
    by_cases hv : (v.isValid == false) = true
    · rw [if_pos hv]; exact ⟨by trivial, by trivial⟩
    · rw [if_neg hv]
      cases hparse : parseDateField payload with
      | fmtErr => exact ⟨by trivial, by trivial⟩
      | typeErr => exact ⟨by trivial, by trivial⟩
      | ok p0 =>
        have hgp : dictGet p0 "nome_produtor" = dictGet payload "nome_produtor" :=
          parseDateField_ok_get_ne _ _ _ hparse (by decide)
        have hgd : dictGet p0 "caminhoneiro" = dictGet payload "caminhoneiro" :=
          parseDateField_ok_get_ne _ _ _ hparse (by decide)
        have hp2p : blankVal (dictGet (dictSet
            (dictSet p0 "id" (PyVal.vstr (genId s.nextId))) "status"
            (dictGetD (dictSet p0 "id" (PyVal.vstr (genId s.nextId))) "status"
              (PyVal.vstr "active"))) "nome_produtor") = true := by
          rw [dictGet_dictSet_ne _ _ _ _ (by decide),
            dictGet_dictSet_ne _ _ _ _ (by decide), hgp]
          exact hp
        have hp2d : blankVal (dictGet (dictSet
            (dictSet p0 "id" (PyVal.vstr (genId s.nextId))) "status"
            (dictGetD (dictSet p0 "id" (PyVal.vstr (genId s.nextId))) "status"
              (PyVal.vstr "active"))) "caminhoneiro") = true := by
          rw [dictGet_dictSet_ne _ _ _ _ (by decide),
            dictGet_dictSet_ne _ _ _ _ (by decide), hgd]
          exact hd
        rcases lotUpserts_blank e.uErr _ { s with nextId := s.nextId + 1 } hp2p hp2d
          with hok | herr
        · simp only [hparse, hok]
          by_cases hw : e.wErr = true
          · simp only [hw, if_true]; exact ⟨by trivial, by trivial⟩
          · simp only [hw, Bool.false_eq_true, if_false]; exact ⟨by trivial, by trivial⟩
        · simp only [hparse, herr]; exact ⟨by trivial, by trivial⟩
  have hupd : (update_coffee_lot e lotId payload s).2.producers = s.producers
      ∧ (update_coffee_lot e lotId payload s).2.drivers = s.drivers := by
    unfold update_coffee_lot
    by_cases hnn : validate_boca_entrada e.vErr (dictGet payload "boca_entrada")
        (some lotId) s = none
    · simp only [hnn]; exact ⟨by trivial, by trivial⟩
    obtain ⟨v, hvv⟩ := Option.ne_none_iff_exists'.mp hnn
    simp only [hvv]
    by_cases hv : (v.isValid == false) = true
    · rw [if_pos hv]; exact ⟨by trivial, by trivial⟩
    · rw [if_neg hv]
      cases hparse : parseDateField payload with
      | fmtErr => exact ⟨by trivial, by trivial⟩
      | typeErr => exact ⟨by trivial, by trivial⟩
      | ok p0 =>
        have hgp : dictGet p0 "nome_produtor" = dictGet payload "nome_produtor" :=
          parseDateField_ok_get_ne _ _ _ hparse (by decide)
        have hgd : dictGet p0 "caminhoneiro" = dictGet payload "caminhoneiro" :=
          parseDateField_ok_get_ne _ _ _ hparse (by decide)
        rcases lotUpserts_blank e.uErr p0 s (by rw [hgp]; exact hp)
          (by rw [hgd]; exact hd) with hok | herr
        · simp only [hparse, hok]
          by_cases hcols : (COFFEE_LOT_COLUMNS.filter
              (fun c => dictHas p0 c)).isEmpty = true
          · simp only [hcols, if_true]; exact ⟨by trivial, by trivial⟩
          · simp only [hcols, Bool.false_eq_true, if_false]
            by_cases hw : e.wErr = true
            · simp only [hw, if_true]; exact ⟨by trivial, by trivial⟩
            · simp only [hw, Bool.false_eq_true, if_false]
              split <;> exact ⟨by trivial, by trivial⟩
        · simp only [hparse, herr]; exact ⟨by trivial, by trivial⟩
  exact ⟨hadd.1, hadd.2, hupd.1, hupd.2⟩

theorem C10_blank_upsert_noop_witness :
    (add_coffee_lot Errs.ok
        [("nome_produtor", PyVal.vstr " "), ("boca_entrada", PyVal.vint 2)]
        demoStore).2.producers = demoStore.producers
    ∧ (add_coffee_lot Errs.ok
        [("nome_produtor", PyVal.vstr " "), ("boca_entrada", PyVal.vint 2)]
        demoStore).2.drivers = demoStore.drivers
    ∧ (update_coffee_lot Errs.ok "uuid-9"
        [("nome_produtor", PyVal.vstr " "), ("boca_entrada", PyVal.vint 2)]
        demoStore).2.producers = demoStore.producers
    ∧ (update_coffee_lot Errs.ok "uuid-9"
        [("nome_produtor", PyVal.vstr " "), ("boca_entrada", PyVal.vint 2)]
        demoStore).2.drivers = demoStore.drivers :=
  C10_blank_upsert_noop.2.2.2.2 Errs.ok
    [("nome_produtor", PyVal.vstr " "), ("boca_entrada", PyVal.vint 2)]
    demoStore "uuid-9" (by decide) (by decide)

theorem msgBody_inj {a b : String} (h : msgBody a = msgBody b) : a = b := by
  simpa [msgBody] using h

theorem bocaTakenMsg_ne_noUpdate (b : Int) : bocaTakenMsg b ≠ noUpdateDataMsg := by
  intro h
  have h2 := congrArg (fun t => t.data.take 2) h
  simp only at h2
  have hL : (bocaTakenMsg b).data.take 2 = ['N', 'º'] := by
    show (("Nº da Boca de Entrada " ++ toString b ++
      " já está em uso por um lote ativo.").data.take 2) = ['N', 'º']
    have hd1 : ("Nº da Boca de Entrada " ++ toString b ++
        " já está em uso por um lote ativo.").data =
        "Nº da Boca de Entrada ".data ++
          ((toString b).data ++ " já está em uso por um lote ativo.".data) := by
      rw [String.data_append, String.data_append, List.append_assoc]
    rw [hd1]
    rw [List.take_append_of_le_length (by decide)]
    decide
  rw [hL] at h2
  have hR : noUpdateDataMsg.data.take 2 = ['N', 'e'] := by decide
  rw [hR] at h2
  cases h2

theorem validate_message_ne_noUpdate (vErr : Bool) (boca : PyVal)
    (excl : Option String) (s : Store) (v : VResult)
    (h : validate_boca_entrada vErr boca excl s = some v) :
    v.message ≠ noUpdateDataMsg := by
  cases boca with
  | vnone =>
    simp only [validate_boca_entrada, Option.some.injEq] at h
    rw [← h]
    decide
  | vint b =>
    simp only [validate_boca_entrada] at h
    by_cases hr : b < 1 ∨ 8 < b
    · rw [if_pos hr, Option.some.injEq] at h
      rw [← h]; decide
    · rw [if_neg hr] at h
      by_cases hvErr : vErr = true
      · rw [if_pos hvErr, Option.some.injEq] at h
        rw [← h]; decide
      · rw [if_neg hvErr] at h
        by_cases ht : s.coffeeLots.any (occRowPred b excl) = true
        · simp only [ht, if_true, Option.some.injEq] at h
          rw [← h]
          exact bocaTakenMsg_ne_noUpdate b
        · simp only [Bool.not_eq_true] at ht
          simp only [ht, Bool.false_eq_true, if_false, Option.some.injEq] at h
          rw [← h]; decide
  | vstr t => exact Option.noConfusion h
  | vdate d => exact Option.noConfusion h

theorem validate_valid_boca (vErr : Bool) (boca : PyVal)
    (excl : Option String) (s : Store) (v : VResult)
    (h : validate_boca_entrada vErr boca excl s = some v)
    (hv : v.isValid = true) :
    ∃ b, boca = PyVal.vint b ∧ 1 ≤ b ∧ b ≤ 8 := by
  cases boca with
  | vnone =>
    simp only [validate_boca_entrada, Option.some.injEq] at h
    rw [← h] at hv
    exact Bool.noConfusion hv
  | vint b =>
    refine ⟨b, rfl, ?_, ?_⟩ <;>
    · by_contra hc
      simp only [validate_boca_entrada] at h
      rw [if_pos (by omega), Option.some.injEq] at h
      rw [← h] at hv
      exact Bool.noConfusion hv
  | vstr t => exact Option.noConfusion h
  | vdate d => exact Option.noConfusion h

theorem get_by_id_body_ne_noUpdate (lotId : String) (st : Store) :
    (get_coffee_lot_by_id lotId st).body ≠ msgBody noUpdateDataMsg := by
  unfold get_coffee_lot_by_id
  cases hf : st.coffeeLots.find? (fun r => dictGet r "id" == PyVal.vstr lotId) with
  | none => intro h; exact absurd (msgBody_inj h) (by decide)
  | some r =>
    intro h
    have hser : serialize_coffee_lot r = [("message", PyVal.vstr noUpdateDataMsg)] :=
      Body.obj.inj h
    have hid : dictGet r "id" = PyVal.vstr lotId := by
      have := List.find?_some hf
      simpa using this
    have hid2 : dictGet (serialize_coffee_lot r) "id" = PyVal.vstr lotId := by
      rw [dictGet_serialize, hid]
      show serializeCell "id" (PyVal.vstr lotId) = PyVal.vstr lotId
      unfold serializeCell
      rw [if_neg (by decide)]
    rw [hser] at hid2
    simp [dictGet, List.find?] at hid2

/-- C9 (amended): a PUT whose payload lacks boca_entrada (data.get answers
None) or carries an integer outside 1..8 is rejected 400 with the bay-range
message before any write, leaving the store untouched; a PUT whose
boca_entrada is a non-numeric JSON value (a string, say) makes the range
comparison raise TypeError, which escapes the handler as an uncaught 500 -
also before any write, but not the claimed 400; and in every case the
handler's separate 400 branch for a payload with no updatable columns can
never answer, since any payload passing bay validation contains
boca_entrada, an updatable column. -/
theorem C9_update_demands_boca (e : Errs) (lotId : String) (payload : Dict)
    (s : Store) :
    ((dictGet payload "boca_entrada" = PyVal.vnone
        ∨ ∃ b, dictGet payload "boca_entrada" = PyVal.vint b ∧ (b < 1 ∨ 8 < b)) →
      update_coffee_lot e lotId payload s = (⟨400, msgBody bocaRangeMsg⟩, s))
    ∧ (∀ str, dictGet payload "boca_entrada" = PyVal.vstr str →
      update_coffee_lot e lotId payload s = (⟨500, Body.crash⟩, s))
    ∧ (update_coffee_lot e lotId payload s).1.body ≠ msgBody noUpdateDataMsg := by
  refine ⟨?_, ?_, ?_⟩
  · intro hbad
    have hval : validate_boca_entrada e.vErr
        (dictGet payload "boca_entrada") (some lotId) s =
        some ⟨false, bocaRangeMsg⟩ := by
      rcases hbad with hnone | ⟨b, hb, hr⟩
      · rw [hnone]; rfl
      · rw [hb]; simp only [validate_boca_entrada]; rw [if_pos hr]
    unfold update_coffee_lot
    rw [hval]
    rfl
  · intro str hstr
    have hval : validate_boca_entrada e.vErr
        (dictGet payload "boca_entrada") (some lotId) s = none := by
      rw [hstr]; rfl
    unfold update_coffee_lot
    rw [hval]
  · unfold update_coffee_lot
    by_cases hnn : validate_boca_entrada e.vErr
        (dictGet payload "boca_entrada") (some lotId) s = none
    · simp only [hnn]; intro h; cases h
    obtain ⟨v, hvv⟩ := Option.ne_none_iff_exists'.mp hnn
    simp only [hvv]
    by_cases hv : (v.isValid == false) = true
    · rw [if_pos hv]
      intro h
      exact validate_message_ne_noUpdate _ _ _ _ _ hvv (msgBody_inj h)
    · rw [if_neg hv]
      have hvalid : v.isValid = true := by
        rcases Bool.eq_false_or_eq_true v.isValid with ht | hf
        · exact ht
        · exact absurd (by rw [hf]; decide) hv
      obtain ⟨b, hb, h1, h8⟩ := validate_valid_boca _ _ _ _ _ hvv hvalid
      cases hparse : parseDateField payload with
      | fmtErr => intro h; exact absurd (msgBody_inj h) (by decide)
      | typeErr => intro h; cases h
      | ok p0 =>
        have hhasP : dictHas payload "boca_entrada" = true := by
          apply dictGet_ne_none_has
          intro hnone
          rw [hnone] at hb
          cases hb
        have hhas0 : dictHas p0 "boca_entrada" = true := by
          rcases parseDateField_ok_shape _ _ hparse with rfl | ⟨dt, rfl⟩
          · exact hhasP
          · rw [dictHas_dictSet, hhasP]; rfl
        have hcols : (COFFEE_LOT_COLUMNS.filter
            (fun c => dictHas p0 c)).isEmpty = false := by
          have hmemf : "boca_entrada" ∈ COFFEE_LOT_COLUMNS.filter
              (fun c => dictHas p0 c) :=
            List.mem_filter.mpr ⟨by decide, hhas0⟩
          cases hl : COFFEE_LOT_COLUMNS.filter (fun c => dictHas p0 c) with
          | nil => rw [hl] at hmemf; cases hmemf
          | cons x xs => rfl
        cases hup : lotUpserts e.uErr p0 s with
        | error s1 => simp only [hup]; intro h; cases h
        | ok s1 =>
          simp only [hup]
          rw [if_neg (by simp [hcols])]
          by_cases hw : e.wErr = true
          · rw [if_pos hw]; intro h; exact absurd (msgBody_inj h) (by decide)
          · rw [if_neg hw]
            by_cases hm : ((s1.coffeeLots.any
                (fun r => dictGet r "id" == PyVal.vstr lotId)) == false) = true
            · rw [if_pos hm]; intro h; exact absurd (msgBody_inj h) (by decide)
            · rw [if_neg hm]
              exact fun h => get_by_id_body_ne_noUpdate lotId _ h

theorem C9_update_demands_boca_witness :
    update_coffee_lot Errs.ok "uuid-9" [("status", PyVal.vstr "arquivado")]
        demoStore = (⟨400, msgBody bocaRangeMsg⟩, demoStore) :=
  (C9_update_demands_boca Errs.ok "uuid-9" [("status", PyVal.vstr "arquivado")]
    demoStore).1 (Or.inl (by decide))

/-- C9 counterexample: a PUT whose boca_entrada is the JSON string 3 - not
an integer in 1..8 - is not rejected 400 with the range message: the
comparison 1 <= boca raises TypeError outside the handler's try block and
the request dies as an uncaught 500 with no message body, the store
untouched. -/
theorem C9_counterexample_string_boca :
    update_coffee_lot Errs.ok "uuid-9" [("boca_entrada", PyVal.vstr "3")]
        demoStore = (⟨500, Body.crash⟩, demoStore)
    ∧ (update_coffee_lot Errs.ok "uuid-9" [("boca_entrada", PyVal.vstr "3")]
        demoStore).1.status ≠ 400 := by
  exact ⟨rfl, by decide⟩

/-- C2 counterexample: on a store holding one lot, a PUT whose payload
contains only status does not succeed: it is rejected 400 by bay validation
and the store is left unchanged.  Nor does every payload passing bay
validation reach the claimed 200-with-frame outcome: a payload carrying a
different id rewrites the row's id so the re-fetch by the old id answers
404; a payload with a malformed data_entrada answers 400; and a payload
whose nome_produtor is a truthy non-string raises out of the handler as an
uncaught 500. -/
theorem C2_counterexample_only_status_update :
    ((update_coffee_lot Errs.ok "uuid-9" [("status", PyVal.vstr "inactive")]
        demoStore).1.status = 400
    ∧ (update_coffee_lot Errs.ok "uuid-9" [("status", PyVal.vstr "inactive")]
        demoStore).1.body = msgBody bocaRangeMsg
    ∧ (update_coffee_lot Errs.ok "uuid-9" [("status", PyVal.vstr "inactive")]
        demoStore).2 = demoStore)
    ∧ (update_coffee_lot Errs.ok "uuid-9"
        [("boca_entrada", PyVal.vint 4), ("id", PyVal.vstr "uuid-x")]
        demoStore).1.status = 404
    ∧ update_coffee_lot Errs.ok "uuid-9"
        [("boca_entrada", PyVal.vint 4), ("data_entrada", PyVal.vstr "15/03/2024")]
        demoStore = (⟨400, msgBody dateFmtMsg⟩, demoStore)
    ∧ (update_coffee_lot Errs.ok "uuid-9"
        [("boca_entrada", PyVal.vint 4), ("nome_produtor", PyVal.vint 5)]
        demoStore).1 = ⟨500, Body.crash⟩ := by
  refine ⟨⟨?_, ?_, ?_⟩, ?_, ?_, ?_⟩ <;> decide

/-- A payload value that Python can hand to str.strip() without raising:
a string, or None. -/
def strOrNull : PyVal → Bool
  | PyVal.vstr _ => true
  | PyVal.vnone => true
  | _ => false

/-- The payload fields feeding the registry upserts are strings or null, as
any JSON payload produced by the frontend satisfies. -/
def payloadRegWF (p : Dict) : Bool :=
  strOrNull (dictGet p "nome_produtor") &&
  strOrNull (dictGetD p "nome_propriedade" (PyVal.vstr "")) &&
  strOrNull (dictGet p "caminhoneiro")

theorem add_producer_coffeeLots (u : Bool) (n pr : Option String) (s : Store) :
    (add_producer_if_not_exists u n pr s).coffeeLots = s.coffeeLots := by
  cases n with
  | none => rfl
  | some m =>
    unfold add_producer_if_not_exists
    dsimp only
    split
    · rfl
    · split
      · rfl
      · split
        · rfl
        · rfl

theorem add_driver_coffeeLots (u : Bool) (n : Option String) (s : Store) :
    (add_driver_if_not_exists u n s).coffeeLots = s.coffeeLots := by
  cases n with
  | none => rfl
  | some m =>
    unfold add_driver_if_not_exists
    dsimp only
    split
    · rfl
    · split
      · rfl
      · split
        · rfl
        · rfl

theorem lotUpserts_wf (u : Bool) (p : Dict) (s : Store)
    (h : payloadRegWF p = true) :
    ∃ s1, lotUpserts u p s = Except.ok s1 ∧ s1.coffeeLots = s.coffeeLots := by
  have h123 := h
  simp only [payloadRegWF, Bool.and_eq_true] at h123
  obtain ⟨⟨h1, h2⟩, h3⟩ := h123
  have hdrv : ∀ s0 : Store, s0.coffeeLots = s.coffeeLots →
      ∃ s1, (if pyTruthy (dictGet p "caminhoneiro") then
        match dictGet p "caminhoneiro" with
        | PyVal.vstr dn => Except.ok (add_driver_if_not_exists u (some dn) s0)
        | _ => Except.error s0
       else Except.ok s0) = Except.ok s1 ∧ s1.coffeeLots = s.coffeeLots := by
    intro s0 hs0
    cases hdv : dictGet p "caminhoneiro" with
    | vnone => exact ⟨s0, by simp [pyTruthy], hs0⟩
    | vstr t =>
      by_cases ht : t = ""
      · exact ⟨s0, by simp [pyTruthy, ht], hs0⟩
      · refine ⟨add_driver_if_not_exists u (some t) s0, by simp [pyTruthy, ht], ?_⟩
        rw [add_driver_coffeeLots]
        exact hs0
    | vint n => rw [hdv] at h3; simp [strOrNull] at h3
    | vdate dt => rw [hdv] at h3; simp [strOrNull] at h3
  unfold lotUpserts
  cases hpv : dictGet p "nome_produtor" with
  | vnone =>
    obtain ⟨s1, hok, hlots⟩ := hdrv s rfl
    refine ⟨s1, ?_, hlots⟩
    simp only [hpv, pyTruthy, Bool.false_eq_true, if_false]
    exact hok
  | vstr pn =>
    by_cases hpn : pn = ""
    · obtain ⟨s1, hok, hlots⟩ := hdrv s rfl
      refine ⟨s1, ?_, hlots⟩
      simp only [hpv, hpn, pyTruthy]
      simp only [ne_eq, not_true_eq_false, decide_False, Bool.false_eq_true, if_false]
      exact hok
    · have hprop : ∃ po, asStrOrNull (dictGetD p "nome_propriedade"
          (PyVal.vstr "")) = some po := by
        cases hx : dictGetD p "nome_propriedade" (PyVal.vstr "") with
        | vstr t => exact ⟨some t, rfl⟩
        | vnone => exact ⟨none, rfl⟩
        | vint n => rw [hx] at h2; simp [strOrNull] at h2
        | vdate dt => rw [hx] at h2; simp [strOrNull] at h2
      obtain ⟨po, hpo⟩ := hprop
      obtain ⟨s1, hok, hlots⟩ := hdrv (add_producer_if_not_exists u (some pn) po s)
        (add_producer_coffeeLots u (some pn) po s)
      refine ⟨s1, ?_, hlots⟩
      simp only [hpv, hpo, pyTruthy]
      rw [if_pos (by simpa using hpn)]
      exact hok
  | vint n => rw [hpv] at h1; simp [strOrNull] at h1
  | vdate dt => rw [hpv] at h1; simp [strOrNull] at h1

theorem dictGet_cons_self (k : String) (v : PyVal) (t : Dict) :
    dictGet ((k, v) :: t) k = v := by
  unfold dictGet
  have h : List.find? (fun kv => kv.1 == k) ((k, v) :: t) = some (k, v) :=
    List.find?_cons_of_pos _ (by simp)
  rw [h]

theorem dictGet_cons_ne (k1 : String) (v : PyVal) (t : Dict) (k : String)
    (h : (k1 == k) = false) :
    dictGet ((k1, v) :: t) k = dictGet t k := by
  unfold dictGet
  have h2 : List.find? (fun kv => kv.1 == k) ((k1, v) :: t) =
      List.find? (fun kv => kv.1 == k) t :=
    List.find?_cons_of_neg _ (by simp [h])
  rw [h2]

theorem dictGet_applyRowUpdate (cols : List String) (p r : Dict) (c : String) :
    dictGet (applyRowUpdate cols p r) c =
      if (cols.contains c && dictHas r c) = true then dictGet p c
      else dictGet r c := by
  induction r with
  | nil => simp [applyRowUpdate, dictGet, dictHas]
  | cons a t ih =>
    obtain ⟨a1, a2⟩ := a
    unfold applyRowUpdate at ih ⊢
    rw [List.map_cons]
    by_cases ha : (a1 == c) = true
    · have hac : a1 = c := by simpa using ha
      subst hac
      have hhas : dictHas ((a1, a2) :: t) a1 = true := by simp [dictHas]
      rw [hhas]
      by_cases hcont : cols.contains a1 = true
      · rw [if_pos hcont, dictGet_cons_self, hcont]
        simp
      · have hcf : cols.contains a1 = false := by simpa using hcont
        rw [if_neg hcont, dictGet_cons_self, hcf]
        simp [dictGet_cons_self]
    · have haf : (a1 == c) = false := by simpa using ha
      have hstep : dictHas ((a1, a2) :: t) c = dictHas t c := by
        simp [dictHas, List.any_cons, haf]
      rw [hstep]
      by_cases hcont : cols.contains a1 = true
      · rw [if_pos hcont, dictGet_cons_ne _ _ _ _ haf, dictGet_cons_ne _ _ _ _ haf]
        exact ih
      · rw [if_neg hcont, dictGet_cons_ne _ _ _ _ haf, dictGet_cons_ne _ _ _ _ haf]
        exact ih

theorem isEmpty_false_of_mem {α : Type} {a : α} {l : List α} (h : a ∈ l) :
    l.isEmpty = false := by
  cases l with
  | nil => cases h
  | cons x xs => rfl

theorem contains_eq_true_iff (l : List String) (c : String) :
    l.contains c = true ↔ c ∈ l :=
  ⟨List.mem_of_elem_eq_true, List.elem_eq_true_of_mem⟩

theorem contains_filter_false (l : List String) (q : String → Bool) (c : String)
    (h : q c = false) : (l.filter q).contains c = false := by
  cases hc : (l.filter q).contains c
  · rfl
  · exfalso
    have hm := (contains_eq_true_iff (l.filter q) c).mp hc
    have h2 := (List.mem_filter.mp hm).2
    rw [h] at h2
    cases h2

theorem dictHas_eq_mem_keys (d : Dict) (c : String) :
    dictHas d c = true ↔ c ∈ dictKeys d := by
  unfold dictHas dictKeys
  rw [List.any_eq_true]
  constructor
  · rintro ⟨kv, hm, hb⟩
    exact List.mem_map.mpr ⟨kv, hm, by simpa using hb⟩
  · intro hm
    obtain ⟨kv, hkv, he⟩ := List.mem_map.mp hm
    exact ⟨kv, hkv, by simp [he]⟩

theorem find?_update_map (q : Dict → Bool) (u : Dict → Dict) (lots : List Dict)
    (r0 : Dict) (hf : lots.find? q = some r0) (hq : q (u r0) = true) :
    (lots.map (fun r => if q r then u r else r)).find? q = some (u r0) := by
  induction lots with
  | nil => cases hf
  | cons a t ih =>
    rw [List.map_cons]
    by_cases ha : q a = true
    · simp only [List.find?_cons, ha] at hf
      have ha0 : a = r0 := Option.some.inj hf
      subst ha0
      rw [if_pos ha]
      simp only [List.find?_cons, hq]
    · have haf : q a = false := by simpa using ha
      rw [if_neg ha]
      simp only [List.find?_cons, haf] at hf ⊢
      exact ih hf

/-- C2 (amended): a PUT whose payload contains only status does not succeed
(bay validation rejects it 400, see the counterexample); when the payload
passes bay validation, carries no data_entrada key, does not rewrite the id,
and its registry fields (producer, property, driver) are strings or absent,
the update answers 200 with the re-fetched row and rewrites exactly the
columns present in the payload: every column absent from the payload keeps
its prior value and every payload column takes the payload value.  Outside
those conditions the 200-with-frame outcome is not guaranteed: the
counterexample shows a payload with a different id ending 404, a malformed
date ending 400, and a non-string producer name ending as an uncaught
500. -/
theorem C2_partial_update_frame (lotId : String) (payload : Dict) (s : Store)
    (r0 : Dict)
    (hfind : s.coffeeLots.find? (fun r => dictGet r "id" == PyVal.vstr lotId)
      = some r0)
    (hrow : dictKeys r0 = COFFEE_LOT_COLUMNS)
    (hvalid : validate_boca_entrada false
        (dictGet payload "boca_entrada") (some lotId) s = some ⟨true, ""⟩)
    (hnodate : dictHas payload "data_entrada" = false)
    (hnoid : dictHas payload "id" = false)
    (hreg : payloadRegWF payload = true) :
    ∃ s2,
      update_coffee_lot Errs.ok lotId payload s =
        (⟨200, Body.obj (serialize_coffee_lot (applyRowUpdate
            (COFFEE_LOT_COLUMNS.filter (fun c => dictHas payload c))
            payload r0))⟩, s2)
      ∧ s2.coffeeLots = s.coffeeLots.map (fun r =>
          if dictGet r "id" == PyVal.vstr lotId then
            applyRowUpdate (COFFEE_LOT_COLUMNS.filter
              (fun c => dictHas payload c)) payload r
          else r)
      ∧ (∀ c, dictHas payload c = false →
          dictGet (applyRowUpdate (COFFEE_LOT_COLUMNS.filter
            (fun c2 => dictHas payload c2)) payload r0) c = dictGet r0 c)
      ∧ (∀ c, c ∈ COFFEE_LOT_COLUMNS → dictHas payload c = true →
          dictGet (applyRowUpdate (COFFEE_LOT_COLUMNS.filter
            (fun c2 => dictHas payload c2)) payload r0) c = dictGet payload c) := by
  have hparse : parseDateField payload = DateParse.ok payload := by
    unfold parseDateField
    rw [if_neg (by simp [hnodate])]
  obtain ⟨s1, hup, hlots⟩ := lotUpserts_wf Errs.ok.uErr payload s hreg
  obtain ⟨b, hb, hb1, hb8⟩ := validate_valid_boca _ _ _ _ _ hvalid rfl
  have hhasB : dictHas payload "boca_entrada" = true := by
    apply dictGet_ne_none_has
    intro hnone
    rw [hnone] at hb
    cases hb
  have hne : (COFFEE_LOT_COLUMNS.filter
      (fun c => dictHas payload c)).isEmpty = false :=
    isEmpty_false_of_mem (List.mem_filter.mpr ⟨by decide, hhasB⟩)
  have hmem0 : r0 ∈ s.coffeeLots := List.mem_of_find?_eq_some hfind
  have hpred0 : (dictGet r0 "id" == PyVal.vstr lotId) = true := by
    have h := List.find?_some hfind
    exact h
  have hmatched : s1.coffeeLots.any
      (fun r => dictGet r "id" == PyVal.vstr lotId) = true := by
    rw [hlots, List.any_eq_true]
    exact ⟨r0, hmem0, hpred0⟩
  have hcfid : (COFFEE_LOT_COLUMNS.filter
      (fun c => dictHas payload c)).contains "id" = false :=
    contains_filter_false COFFEE_LOT_COLUMNS (fun c => dictHas payload c) "id" hnoid
  have hidkeep : dictGet (applyRowUpdate (COFFEE_LOT_COLUMNS.filter
      (fun c => dictHas payload c)) payload r0) "id" = dictGet r0 "id" := by
    rw [dictGet_applyRowUpdate]
    rw [if_neg (by rw [hcfid]; simp)]
  have hqu : (dictGet (applyRowUpdate (COFFEE_LOT_COLUMNS.filter
      (fun c => dictHas payload c)) payload r0) "id" == PyVal.vstr lotId)
      = true := by
    rw [hidkeep]; exact hpred0
  have hfind2 : (s.coffeeLots.map (fun r =>
      if dictGet r "id" == PyVal.vstr lotId then
        applyRowUpdate (COFFEE_LOT_COLUMNS.filter
          (fun c => dictHas payload c)) payload r
      else r)).find? (fun r => dictGet r "id" == PyVal.vstr lotId) =
      some (applyRowUpdate (COFFEE_LOT_COLUMNS.filter
        (fun c => dictHas payload c)) payload r0) :=
    find?_update_map _ _ _ _ hfind hqu
  refine ⟨{ s1 with coffeeLots := s1.coffeeLots.map (fun r =>
      if dictGet r "id" == PyVal.vstr lotId then
        applyRowUpdate (COFFEE_LOT_COLUMNS.filter
          (fun c => dictHas payload c)) payload r
      else r) }, ?_, ?_, ?_, ?_⟩
  · have hvalid2 : validate_boca_entrada Errs.ok.vErr
        (dictGet payload "boca_entrada") (some lotId) s = some ⟨true, ""⟩ :=
      hvalid
    unfold update_coffee_lot
    simp only [hvalid2]
    rw [if_neg (by decide)]
    simp only [hparse, hup]
    rw [if_neg (by simp [hne])]
    rw [if_neg (by decide)]
    rw [if_neg (by simp [hmatched])]
    unfold get_coffee_lot_by_id
    simp only [hlots, hfind2]
  · simp only [hlots]
  · intro c hc
    have hcfc : (COFFEE_LOT_COLUMNS.filter
        (fun c2 => dictHas payload c2)).contains c = false :=
      contains_filter_false COFFEE_LOT_COLUMNS (fun c2 => dictHas payload c2) c hc
    rw [dictGet_applyRowUpdate]
    rw [if_neg (by rw [hcfc]; simp)]
  · intro c hcm hcp
    rw [dictGet_applyRowUpdate]
    rw [if_pos (by
      have hcont : (COFFEE_LOT_COLUMNS.filter
          (fun c2 => dictHas payload c2)).contains c = true :=
        (contains_eq_true_iff _ _).mpr (List.mem_filter.mpr ⟨hcm, hcp⟩)
      have hhasr : dictHas r0 c = true := by
        rw [dictHas_eq_mem_keys, hrow]
        exact hcm
      rw [hcont, hhasr]; rfl)]

/-- A payload updating the bay and status of the demo lot. -/
def demoUpdPayload : Dict :=
  [("boca_entrada", PyVal.vint 4), ("status", PyVal.vstr "inactive")]

theorem C2_partial_update_frame_witness :
    ∃ s2,
      update_coffee_lot Errs.ok "uuid-9" demoUpdPayload demoStore =
        (⟨200, Body.obj (serialize_coffee_lot (applyRowUpdate
            (COFFEE_LOT_COLUMNS.filter (fun c => dictHas demoUpdPayload c))
            demoUpdPayload demoLotRow))⟩, s2)
      ∧ s2.coffeeLots = demoStore.coffeeLots.map (fun r =>
          if dictGet r "id" == PyVal.vstr "uuid-9" then
            applyRowUpdate (COFFEE_LOT_COLUMNS.filter
              (fun c => dictHas demoUpdPayload c)) demoUpdPayload r
          else r)
      ∧ (∀ c, dictHas demoUpdPayload c = false →
          dictGet (applyRowUpdate (COFFEE_LOT_COLUMNS.filter
            (fun c2 => dictHas demoUpdPayload c2)) demoUpdPayload demoLotRow) c
            = dictGet demoLotRow c)
      ∧ (∀ c, c ∈ COFFEE_LOT_COLUMNS → dictHas demoUpdPayload c = true →
          dictGet (applyRowUpdate (COFFEE_LOT_COLUMNS.filter
            (fun c2 => dictHas demoUpdPayload c2)) demoUpdPayload demoLotRow) c
            = dictGet demoUpdPayload c) :=
  C2_partial_update_frame "uuid-9" demoUpdPayload demoStore demoLotRow
    (by decide) (by decide) (by decide) (by decide) (by decide) (by decide)

/-- The keys of a JSON object body (empty for other body shapes). -/
def bodyKeys : Body → List String
  | Body.obj d => dictKeys d
  | _ => []

/-- C7 counterexample: a POST payload carrying an extra field foo and missing
most columns answers 201 whose body field set is the payload keys plus id and
status: it contains foo, which is not a column, and misses lote_numero, which
is one. -/
theorem C7_counterexample_created_body_fields :
    (add_coffee_lot Errs.ok [("boca_entrada", PyVal.vint 3),
        ("foo", PyVal.vstr "x")] Store.empty).1.status = 201
    ∧ bodyKeys (add_coffee_lot Errs.ok [("boca_entrada", PyVal.vint 3),
        ("foo", PyVal.vstr "x")] Store.empty).1.body
        = ["boca_entrada", "foo", "id", "status"]
    ∧ "foo" ∉ COFFEE_LOT_COLUMNS
    ∧ "lote_numero" ∈ COFFEE_LOT_COLUMNS
    ∧ "lote_numero" ∉ (["boca_entrada", "foo", "id", "status"] : List String) := by
  refine ⟨?_, ?_, ?_, ?_, ?_⟩ <;> decide

theorem dictGetD_dictSet_ne (d : Dict) (k : String) (v : PyVal) (k2 : String)
    (dflt : PyVal) (h : (k == k2) = false) :
    dictGetD (dictSet d k v) k2 dflt = dictGetD d k2 dflt := by
  unfold dictSet
  by_cases hhas : dictHas d k = true
  · rw [if_pos hhas]
    unfold dictGetD
    rw [find?_set_map_ne k k2 v d h]
  · simp only [Bool.not_eq_true] at hhas
    rw [if_neg (by simp [hhas])]
    unfold dictGetD
    rw [List.find?_append]
    cases hf : d.find? (fun kv => kv.1 == k2) with
    | some kv => simp [hf]
    | none => simp [hf, List.find?_cons, h]

theorem dictGetD_not_has (d : Dict) (k : String) (v : PyVal)
    (h : dictHas d k = false) : dictGetD d k v = v := by
  unfold dictGetD
  cases hf : d.find? (fun kv => kv.1 == k) with
  | none => rfl
  | some kv =>
    exfalso
    have hmem := List.mem_of_find?_eq_some hf
    have hp := List.find?_some hf
    have : dictHas d k = true := by
      unfold dictHas
      rw [List.any_eq_true]
      exact ⟨kv, hmem, hp⟩
    rw [h] at this
    cases this

theorem mem_keys_dictSet (d : Dict) (key : String) (v : PyVal) (k : String) :
    k ∈ dictKeys (dictSet d key v) ↔ (k ∈ dictKeys d ∨ k = key) := by
  rw [dictKeys_dictSet]
  by_cases hhas : dictHas d key = true
  · rw [if_pos hhas]
    constructor
    · exact Or.inl
    · rintro (h | rfl)
      · exact h
      · exact (dictHas_eq_mem_keys d k).mp hhas
  · rw [if_neg hhas]
    simp [List.mem_append]

theorem dictKeys_rowOfDict (d : Dict) :
    dictKeys (rowOfDict d) = COFFEE_LOT_COLUMNS := by
  unfold dictKeys rowOfDict
  rw [List.map_map]
  exact List.map_id _

/-- C7 (amended): on a successful POST the 201 body is the request payload
dict as mutated by the handler, serialized: its field set is exactly the
payload keys plus id and status (id freshly assigned, status defaulted to
active when the key was absent) rather than the fixed column list; the row
inserted into the store, in contrast, carries exactly the fixed column list. -/
theorem C7_created_body_is_payload_echo (payload : Dict) (s : Store)
    (hvalid : validate_boca_entrada false
        (dictGet payload "boca_entrada") none s = some ⟨true, ""⟩)
    (hnodate : dictHas payload "data_entrada" = false)
    (hreg : payloadRegWF payload = true) :
    ∃ s2 body,
      add_coffee_lot Errs.ok payload s = (⟨201, Body.obj body⟩, s2)
      ∧ (∀ k, k ∈ dictKeys body ↔ (k ∈ dictKeys payload ∨ k = "id" ∨ k = "status"))
      ∧ dictGet body "id" = PyVal.vstr (genId s.nextId)
      ∧ (dictHas payload "status" = false →
          dictGet body "status" = PyVal.vstr "active")
      ∧ ∃ row, s2.coffeeLots = s.coffeeLots ++ [row]
          ∧ dictKeys row = COFFEE_LOT_COLUMNS := by
  have hvalid2 : validate_boca_entrada Errs.ok.vErr
      (dictGet payload "boca_entrada") none s = some ⟨true, ""⟩ := hvalid
  have hparse : parseDateField payload = DateParse.ok payload := by
    unfold parseDateField
    rw [if_neg (by simp [hnodate])]
  have hregp2 : payloadRegWF (dictSet
      (dictSet payload "id" (PyVal.vstr (genId s.nextId))) "status"
      (dictGetD (dictSet payload "id" (PyVal.vstr (genId s.nextId))) "status"
        (PyVal.vstr "active"))) = true := by
    unfold payloadRegWF at hreg ⊢
    rw [dictGet_dictSet_ne _ _ _ _ (by decide),
      dictGet_dictSet_ne _ _ _ _ (by decide),
      dictGetD_dictSet_ne _ _ _ _ _ (by decide),
      dictGetD_dictSet_ne _ _ _ _ _ (by decide),
      dictGet_dictSet_ne _ _ _ _ (by decide),
      dictGet_dictSet_ne _ _ _ _ (by decide)]
    exact hreg
  obtain ⟨s1, hup, hlots⟩ := lotUpserts_wf Errs.ok.uErr _
    { s with nextId := s.nextId + 1 } hregp2
  refine ⟨{ s1 with coffeeLots := s1.coffeeLots ++
      [rowOfDict (dictSet (dictSet payload "id" (PyVal.vstr (genId s.nextId)))
        "status" (dictGetD (dictSet payload "id" (PyVal.vstr (genId s.nextId)))
          "status" (PyVal.vstr "active")))] },
    serialize_coffee_lot (dictSet (dictSet payload "id"
        (PyVal.vstr (genId s.nextId))) "status"
      (dictGetD (dictSet payload "id" (PyVal.vstr (genId s.nextId)))
        "status" (PyVal.vstr "active"))),
    ?_, ?_, ?_, ?_, ?_⟩
  · unfold add_coffee_lot
    simp only [hvalid2]
    rw [if_neg (by decide)]
    simp only [hparse, hup]
    rw [if_neg (by decide)]
  · intro k
    rw [dictKeys_serialize, mem_keys_dictSet, mem_keys_dictSet]
    tauto
  · rw [dictGet_serialize]
    have hsc : ∀ v, serializeCell "id" v = v := by
      intro v; unfold serializeCell; rw [if_neg (by decide)]
    rw [hsc, dictGet_dictSet_ne _ _ _ _ (by decide), dictGet_dictSet_self]
  · intro hnost
    rw [dictGet_serialize]
    have hsc : ∀ v, serializeCell "status" v = v := by
      intro v; unfold serializeCell; rw [if_neg (by decide)]
    rw [hsc, dictGet_dictSet_self,
      dictGetD_dictSet_ne _ _ _ _ _ (by decide), dictGetD_not_has _ _ _ hnost]
  · refine ⟨rowOfDict (dictSet (dictSet payload "id"
        (PyVal.vstr (genId s.nextId))) "status"
      (dictGetD (dictSet payload "id" (PyVal.vstr (genId s.nextId)))
        "status" (PyVal.vstr "active"))), ?_, dictKeys_rowOfDict _⟩
    show s1.coffeeLots ++ _ = s.coffeeLots ++ _
    rw [hlots]

/-- A POST payload with a free bay, an extra field and no status. -/
def demoAddPayload : Dict :=
  [("boca_entrada", PyVal.vint 3), ("foo", PyVal.vstr "x")]

theorem C7_created_body_is_payload_echo_witness :
    ∃ s2 body,
      add_coffee_lot Errs.ok demoAddPayload Store.empty =
        (⟨201, Body.obj body⟩, s2)
      ∧ (∀ k, k ∈ dictKeys body ↔
          (k ∈ dictKeys demoAddPayload ∨ k = "id" ∨ k = "status"))
      ∧ dictGet body "id" = PyVal.vstr (genId Store.empty.nextId)
      ∧ (dictHas demoAddPayload "status" = false →
          dictGet body "status" = PyVal.vstr "active")
      ∧ ∃ row, s2.coffeeLots = Store.empty.coffeeLots ++ [row]
          ∧ dictKeys row = COFFEE_LOT_COLUMNS :=
  C7_created_body_is_payload_echo demoAddPayload Store.empty
    (by decide) (by decide) (by decide)

/-- C8 counterexample: a store error during bay validation yields a 400
response carrying the generic validation-failure message, not a 500. -/
theorem C8_counterexample_validation_store_error :
    (add_coffee_lot ⟨true, false, false⟩ [("boca_entrada", PyVal.vint 3)]
        Store.empty).1.status = 400
    ∧ (add_coffee_lot ⟨true, false, false⟩ [("boca_entrada", PyVal.vint 3)]
        Store.empty).1.status ≠ 500
    ∧ (add_coffee_lot ⟨true, false, false⟩ [("boca_entrada", PyVal.vint 3)]
        Store.empty).1.body = msgBody bocaDbErrMsg := by
  refine ⟨?_, ?_, ?_⟩ <;> decide

theorem payloadRegWF_dictSet_id_status (payload : Dict) (v1 v2 : PyVal)
    (hreg : payloadRegWF payload = true) :
    payloadRegWF (dictSet (dictSet payload "id" v1) "status" v2) = true := by
  unfold payloadRegWF at hreg ⊢
  rw [dictGet_dictSet_ne _ _ _ _ (by decide),
    dictGet_dictSet_ne _ _ _ _ (by decide),
    dictGetD_dictSet_ne _ _ _ _ _ (by decide),
    dictGetD_dictSet_ne _ _ _ _ _ (by decide),
    dictGet_dictSet_ne _ _ _ _ (by decide),
    dictGet_dictSet_ne _ _ _ _ (by decide)]
  exact hreg

theorem add_producer_uErr (n pr : Option String) (s : Store) :
    add_producer_if_not_exists true n pr s = s := by
  cases n with
  | none => rfl
  | some m =>
    unfold add_producer_if_not_exists
    dsimp only
    split
    · rfl
    · rfl

theorem add_driver_uErr (n : Option String) (s : Store) :
    add_driver_if_not_exists true n s = s := by
  cases n with
  | none => rfl
  | some m =>
    unfold add_driver_if_not_exists
    dsimp only
    split
    · rfl
    · rfl

theorem lotUpserts_uErr (p : Dict) (s : Store) (h : payloadRegWF p = true) :
    lotUpserts true p s = Except.ok s := by
  have h123 := h
  simp only [payloadRegWF, Bool.and_eq_true] at h123
  obtain ⟨⟨h1, h2⟩, h3⟩ := h123
  have hdrv : (if pyTruthy (dictGet p "caminhoneiro") then
      match dictGet p "caminhoneiro" with
      | PyVal.vstr dn => Except.ok (add_driver_if_not_exists true (some dn) s)
      | _ => Except.error s
     else Except.ok s) = Except.ok s := by
    cases hdv : dictGet p "caminhoneiro" with
    | vnone => simp [pyTruthy]
    | vstr t =>
      by_cases ht : t = ""
      · simp [pyTruthy, ht]
      · simp [pyTruthy, ht, add_driver_uErr]
    | vint n => rw [hdv] at h3; simp [strOrNull] at h3
    | vdate dt => rw [hdv] at h3; simp [strOrNull] at h3
  unfold lotUpserts
  cases hpv : dictGet p "nome_produtor" with
  | vnone =>
    simp only [hpv, pyTruthy, Bool.false_eq_true, if_false]
    exact hdrv
  | vstr pn =>
    by_cases hpn : pn = ""
    · simp only [hpv, hpn, pyTruthy]
      simp only [ne_eq, not_true_eq_false, decide_False, Bool.false_eq_true, if_false]
      exact hdrv
    · have hprop : ∃ po, asStrOrNull (dictGetD p "nome_propriedade"
          (PyVal.vstr "")) = some po := by
        cases hx : dictGetD p "nome_propriedade" (PyVal.vstr "") with
        | vstr t => exact ⟨some t, rfl⟩
        | vnone => exact ⟨none, rfl⟩
        | vint n => rw [hx] at h2; simp [strOrNull] at h2
        | vdate dt => rw [hx] at h2; simp [strOrNull] at h2
      obtain ⟨po, hpo⟩ := hprop
      simp only [hpv, hpo, pyTruthy]
      rw [if_pos (by simpa using hpn)]
      rw [add_producer_uErr]
      exact hdrv
  | vint n => rw [hpv] at h1; simp [strOrNull] at h1
  | vdate dt => rw [hpv] at h1; simp [strOrNull] at h1

/-- C8 (amended): store errors never leak detail and never escape as
uncaught faults, but not every one yields a 500.  A store error during bay
validation makes the validator answer invalid with a fixed generic message,
which the create and update handlers turn into a 400, not a 500, with the
store untouched.  A store error in the INSERT or UPDATE of coffee_lots
yields a 500 with the handler's fixed generic message and leaves coffee_lots
unchanged.  A store error inside an opportunistic registry upsert is
swallowed entirely: the request still succeeds with 201 and the registries
are unchanged. -/
theorem C8_store_errors (payload : Dict) (lotId : String) (s : Store) :
    (∀ e : Errs, e.vErr = true →
      ∀ b, dictGet payload "boca_entrada" = PyVal.vint b → 1 ≤ b → b ≤ 8 →
        add_coffee_lot e payload s = (⟨400, msgBody bocaDbErrMsg⟩, s)
        ∧ update_coffee_lot e lotId payload s = (⟨400, msgBody bocaDbErrMsg⟩, s))
    ∧ (validate_boca_entrada false
          (dictGet payload "boca_entrada") none s = some ⟨true, ""⟩ →
       dictHas payload "data_entrada" = false →
       payloadRegWF payload = true →
        (add_coffee_lot ⟨false, true, false⟩ payload s).1 =
          ⟨500, msgBody "Erro interno do servidor ao adicionar lote."⟩
        ∧ (add_coffee_lot ⟨false, true, false⟩ payload s).2.coffeeLots
            = s.coffeeLots)
    ∧ (validate_boca_entrada false
          (dictGet payload "boca_entrada") (some lotId) s = some ⟨true, ""⟩ →
       dictHas payload "data_entrada" = false →
       payloadRegWF payload = true →
        (update_coffee_lot ⟨false, true, false⟩ lotId payload s).1 =
          ⟨500, msgBody "Erro interno do servidor ao atualizar lote."⟩
        ∧ (update_coffee_lot ⟨false, true, false⟩ lotId payload s).2.coffeeLots
            = s.coffeeLots)
    ∧ (validate_boca_entrada false
          (dictGet payload "boca_entrada") none s = some ⟨true, ""⟩ →
       dictHas payload "data_entrada" = false →
       payloadRegWF payload = true →
        (add_coffee_lot ⟨false, false, true⟩ payload s).1.status = 201
        ∧ (add_coffee_lot ⟨false, false, true⟩ payload s).2.producers
            = s.producers
        ∧ (add_coffee_lot ⟨false, false, true⟩ payload s).2.drivers
            = s.drivers) := by
  refine ⟨?_, ?_, ?_, ?_⟩
  · intro e hvErr b hb hb1 hb8
    have hvalA : validate_boca_entrada e.vErr
        (dictGet payload "boca_entrada") none s =
        some ⟨false, bocaDbErrMsg⟩ := by
      rw [hb]
      simp only [validate_boca_entrada]
      rw [if_neg (by omega), if_pos hvErr]
    have hvalU : validate_boca_entrada e.vErr
        (dictGet payload "boca_entrada") (some lotId) s =
        some ⟨false, bocaDbErrMsg⟩ := by
      rw [hb]
      simp only [validate_boca_entrada]
      rw [if_neg (by omega), if_pos hvErr]
    constructor
    · unfold add_coffee_lot
      rw [hvalA]
      rfl
    · unfold update_coffee_lot
      rw [hvalU]
      rfl
  · intro hvalid hnodate hreg
    have hparse : parseDateField payload = DateParse.ok payload := by
      unfold parseDateField
      rw [if_neg (by simp [hnodate])]
    obtain ⟨s1, hup, hlots⟩ := lotUpserts_wf false
      (dictSet (dictSet payload "id" (PyVal.vstr (genId s.nextId))) "status"
        (dictGetD (dictSet payload "id" (PyVal.vstr (genId s.nextId))) "status"
          (PyVal.vstr "active")))
      { s with nextId := s.nextId + 1 }
      (payloadRegWF_dictSet_id_status payload (PyVal.vstr (genId s.nextId))
        (dictGetD (dictSet payload "id" (PyVal.vstr (genId s.nextId))) "status"
          (PyVal.vstr "active")) hreg)
    have hmain : add_coffee_lot ⟨false, true, false⟩ payload s =
        (⟨500, msgBody "Erro interno do servidor ao adicionar lote."⟩, s1) := by
      unfold add_coffee_lot
      simp only [hvalid]
      rw [if_neg (by decide)]
      simp only [hparse, hup]
      rfl
    rw [hmain]
    exact ⟨rfl, hlots⟩
  · intro hvalid hnodate hreg
    have hparse : parseDateField payload = DateParse.ok payload := by
      unfold parseDateField
      rw [if_neg (by simp [hnodate])]
    obtain ⟨s1, hup, hlots⟩ := lotUpserts_wf false payload s hreg
    obtain ⟨b, hb, hb1, hb8⟩ := validate_valid_boca _ _ _ _ _ hvalid rfl
    have hhasB : dictHas payload "boca_entrada" = true := by
      apply dictGet_ne_none_has
      intro hnone
      rw [hnone] at hb
      cases hb
    have hne : (COFFEE_LOT_COLUMNS.filter
        (fun c => dictHas payload c)).isEmpty = false :=
      isEmpty_false_of_mem (List.mem_filter.mpr ⟨by decide, hhasB⟩)
    have hmain : update_coffee_lot ⟨false, true, false⟩ lotId payload s =
        (⟨500, msgBody "Erro interno do servidor ao atualizar lote."⟩, s1) := by
      unfold update_coffee_lot
      simp only [hvalid]
      rw [if_neg (by decide)]
      simp only [hparse, hup]
      rw [if_neg (by simp [hne])]
      rfl
    rw [hmain]
    exact ⟨rfl, hlots⟩
  · intro hvalid hnodate hreg
    have hparse : parseDateField payload = DateParse.ok payload := by
      unfold parseDateField
      rw [if_neg (by simp [hnodate])]
    have hup : lotUpserts true (dictSet
        (dictSet payload "id" (PyVal.vstr (genId s.nextId))) "status"
        (dictGetD (dictSet payload "id" (PyVal.vstr (genId s.nextId))) "status"
          (PyVal.vstr "active"))) { s with nextId := s.nextId + 1 } =
        Except.ok { s with nextId := s.nextId + 1 } :=
      lotUpserts_uErr _ _ (payloadRegWF_dictSet_id_status payload
        (PyVal.vstr (genId s.nextId))
        (dictGetD (dictSet payload "id" (PyVal.vstr (genId s.nextId))) "status"
          (PyVal.vstr "active")) hreg)
    have hmain : add_coffee_lot ⟨false, false, true⟩ payload s =
        (⟨201, Body.obj (serialize_coffee_lot (dictSet
            (dictSet payload "id" (PyVal.vstr (genId s.nextId))) "status"
            (dictGetD (dictSet payload "id" (PyVal.vstr (genId s.nextId)))
              "status" (PyVal.vstr "active"))))⟩,
          { { s with nextId := s.nextId + 1 } with
            coffeeLots := s.coffeeLots ++ [rowOfDict (dictSet
              (dictSet payload "id" (PyVal.vstr (genId s.nextId))) "status"
              (dictGetD (dictSet payload "id" (PyVal.vstr (genId s.nextId)))
                "status" (PyVal.vstr "active")))] }) := by
      unfold add_coffee_lot
      simp only [hvalid]
      rw [if_neg (by decide)]
      simp only [hparse, hup]
      rfl
    rw [hmain]
    exact ⟨rfl, rfl, rfl⟩

/-- A POST payload targeting the free bay 4 and naming a producer. -/
def demoAddPayload2 : Dict :=
  [("boca_entrada", PyVal.vint 4), ("nome_produtor", PyVal.vstr "Zed")]

theorem C8_store_errors_witness :
    (add_coffee_lot ⟨true, false, false⟩ demoAddPayload2 demoStore =
        (⟨400, msgBody bocaDbErrMsg⟩, demoStore)
      ∧ update_coffee_lot ⟨true, false, false⟩ "uuid-9" demoAddPayload2 demoStore =
        (⟨400, msgBody bocaDbErrMsg⟩, demoStore))
    ∧ ((add_coffee_lot ⟨false, false, true⟩ demoAddPayload2 demoStore).1.status
        = 201
      ∧ (add_coffee_lot ⟨false, false, true⟩ demoAddPayload2 demoStore).2.producers
        = demoStore.producers
      ∧ (add_coffee_lot ⟨false, false, true⟩ demoAddPayload2 demoStore).2.drivers
        = demoStore.drivers) :=
  ⟨(C8_store_errors demoAddPayload2 "uuid-9" demoStore).1 ⟨true, false, false⟩
      rfl 4 (by decide) (by decide) (by decide),
    (C8_store_errors demoAddPayload2 "uuid-9" demoStore).2.2.2
      (by decide) (by decide) (by decide)⟩

theorem digit_bounds (c : Char) (h : isDigitC c = true) :
    48 ≤ c.toNat ∧ c.toNat ≤ 57 := by
  simpa [isDigitC, Bool.and_eq_true] using h

theorem digitChar_digitVal (c : Char) (h : isDigitC c = true) :
    digitChar (digitVal c) = c := by
  obtain ⟨h1, h2⟩ := digit_bounds c h
  unfold digitChar digitVal
  have hm : (c.toNat - 48) % 10 = c.toNat - 48 := Nat.mod_eq_of_lt (by omega)
  rw [hm]
  have h48 : 48 + (c.toNat - 48) = c.toNat := by omega
  rw [h48]
  exact Char.ofNat_toNat c

theorem digitChar_congr (n m : Nat) (h : n % 10 = m % 10) :
    digitChar n = digitChar m := by
  unfold digitChar
  rw [h]

theorem digitVal_le (c : Char) (h : isDigitC c = true) : digitVal c ≤ 9 := by
  obtain ⟨h1, h2⟩ := digit_bounds c h
  unfold digitVal
  omega

theorem date_fromisoformat_isoformat (str : String) (d : PyDate)
    (h : date_fromisoformat str = some d) : date_isoformat d = str := by
  unfold date_fromisoformat at h
  split at h
  · rename_i y1 y2 y3 y4 c1 m1 m2 c2 d1 d2 heq
    by_cases hcond : (isDigitC y1 && isDigitC y2 && isDigitC y3 && isDigitC y4
        && c1 == '-' && isDigitC m1 && isDigitC m2 && c2 == '-'
        && isDigitC d1 && isDigitC d2) = true
    · rw [if_pos hcond] at h
      simp only [Bool.and_eq_true] at hcond
      obtain ⟨⟨⟨⟨⟨⟨⟨⟨⟨hy1, hy2⟩, hy3⟩, hy4⟩, hc1⟩, hm1⟩, hm2⟩, hc2⟩, hd1⟩, hd2⟩ :=
        hcond
      dsimp only at h
      split at h
      · have hd : d = ⟨1000 * digitVal y1 + 100 * digitVal y2 + 10 * digitVal y3
            + digitVal y4, 10 * digitVal m1 + digitVal m2,
            10 * digitVal d1 + digitVal d2⟩ := (Option.some.inj h).symm
        subst hd
        have hc1e : c1 = '-' := by simpa using hc1
        have hc2e : c2 = '-' := by simpa using hc2
        subst hc1e; subst hc2e
        have hv1 := digitVal_le y1 hy1
        have hv2 := digitVal_le y2 hy2
        have hv3 := digitVal_le y3 hy3
        have hv4 := digitVal_le y4 hy4
        have hw1 := digitVal_le m1 hm1
        have hw2 := digitVal_le m2 hm2
        have hx1 := digitVal_le d1 hd1
        have hx2 := digitVal_le d2 hd2
        have e1 : digitChar ((1000 * digitVal y1 + 100 * digitVal y2 +
            10 * digitVal y3 + digitVal y4) / 1000) = y1 :=
          (digitChar_congr _ _ (by omega)).trans (digitChar_digitVal y1 hy1)
        have e2 : digitChar ((1000 * digitVal y1 + 100 * digitVal y2 +
            10 * digitVal y3 + digitVal y4) / 100) = y2 :=
          (digitChar_congr _ _ (by omega)).trans (digitChar_digitVal y2 hy2)
        have e3 : digitChar ((1000 * digitVal y1 + 100 * digitVal y2 +
            10 * digitVal y3 + digitVal y4) / 10) = y3 :=
          (digitChar_congr _ _ (by omega)).trans (digitChar_digitVal y3 hy3)
        have e4 : digitChar (1000 * digitVal y1 + 100 * digitVal y2 +
            10 * digitVal y3 + digitVal y4) = y4 :=
          (digitChar_congr _ _ (by omega)).trans (digitChar_digitVal y4 hy4)
        have f1 : digitChar ((10 * digitVal m1 + digitVal m2) / 10) = m1 :=
          (digitChar_congr _ _ (by omega)).trans (digitChar_digitVal m1 hm1)
        have f2 : digitChar (10 * digitVal m1 + digitVal m2) = m2 :=
          (digitChar_congr _ _ (by omega)).trans (digitChar_digitVal m2 hm2)
        have g1 : digitChar ((10 * digitVal d1 + digitVal d2) / 10) = d1 :=
          (digitChar_congr _ _ (by omega)).trans (digitChar_digitVal d1 hd1)
        have g2 : digitChar (10 * digitVal d1 + digitVal d2) = d2 :=
          (digitChar_congr _ _ (by omega)).trans (digitChar_digitVal d2 hd2)
        apply String.ext
        rw [heq]
        unfold date_isoformat
        dsimp only
        rw [e1, e2, e3, e4, f1, f2, g1, g2]
      · exact Option.noConfusion h
    · rw [if_neg hcond] at h
      exact Option.noConfusion h
  · exact Option.noConfusion h

/-- The dict of a JSON object body (empty for other body shapes). -/
def bodyObj : Body → Dict
  | Body.obj d => d
  | _ => []

/-- A POST payload carrying an entry date and a free bay. -/
def demoDatePayload : Dict :=
  [("boca_entrada", PyVal.vint 2), ("data_entrada", PyVal.vstr "2024-03-15")]

/-- C5: dates round-trip.  Generally, any string date.fromisoformat accepts is
returned verbatim by date.isoformat, so every stored entry date serializes
back to clients as the ISO-8601 YYYY-MM-DD string it was created with, with
no time component; concretely, creating a lot with data_entrada 2024-03-15
and fetching it by its id returns data_entrada 2024-03-15 unchanged. -/
theorem C5_date_roundtrip :
    (∀ str d, date_fromisoformat str = some d → date_isoformat d = str)
    ∧ ((add_coffee_lot Errs.ok demoDatePayload Store.empty).1.status = 201
      ∧ (get_coffee_lot_by_id "uuid-0"
          (add_coffee_lot Errs.ok demoDatePayload Store.empty).2).status = 200
      ∧ dictGet (bodyObj (get_coffee_lot_by_id "uuid-0"
          (add_coffee_lot Errs.ok demoDatePayload Store.empty).2).body)
          "data_entrada" = PyVal.vstr "2024-03-15") :=
  ⟨date_fromisoformat_isoformat, by decide, by decide, by decide⟩

theorem C5_date_roundtrip_witness :
    date_isoformat ⟨2024, 3, 15⟩ = "2024-03-15" :=
  C5_date_roundtrip.1 "2024-03-15" ⟨2024, 3, 15⟩ (by decide)

theorem toNat_ofNat_valid (n : Nat) (h : n.isValidChar) :
    (Char.ofNat n).toNat = n := by
  simp [Char.ofNat, h, Char.toNat, Char.ofNatAux, UInt32.ofNat', UInt32.toNat]

theorem lowerChar_space {c : Char} (h : lowerChar c = ' ') : c = ' ' := by
  unfold lowerChar at h
  split at h
  · exfalso
    rename_i hr
    have hvalid : Nat.isValidChar (c.toNat + 32) := Or.inl (by omega)
    have hv : (Char.ofNat (c.toNat + 32)).toNat = c.toNat + 32 :=
      toNat_ofNat_valid _ hvalid
    have h2 := congrArg Char.toNat h
    rw [hv] at h2
    have h32 : (' ' : Char).toNat = 32 := rfl
    rw [h32] at h2
    omega
  · exact h

theorem lower_not_space (a : Char) (h : a.isWhitespace = false) :
    ((lowerChar a) == ' ') = false := by
  have ha : a ≠ ' ' := by
    intro he
    rw [he] at h
    exact absurd h (by decide)
  have hl : lowerChar a ≠ ' ' := fun hc => ha (lowerChar_space hc)
  simpa using hl

theorem dropWhile_length_le {α : Type} (p : α → Bool) (l : List α) :
    (List.dropWhile p l).length ≤ l.length := by
  induction l with
  | nil => simp [List.dropWhile]
  | cons a t ih =>
    rw [List.dropWhile_cons]
    split
    · exact Nat.le_trans ih (Nat.le_succ _)
    · simp

theorem dropWhile_map_of_self (p q : Char → Bool) (f : Char → Char)
    (l : List Char) (hl : List.dropWhile p l = l)
    (hpq : ∀ a, p a = false → q (f a) = false) :
    List.dropWhile q (l.map f) = l.map f := by
  cases l with
  | nil => rfl
  | cons a t =>
    have hpa : p a = false := by
      by_contra hc
      have hpa2 : p a = true := by simpa using hc
      rw [List.dropWhile_cons, if_pos hpa2] at hl
      have hlen := congrArg List.length hl
      have hle := dropWhile_length_le p t
      simp at hlen
      omega
    rw [List.map_cons, List.dropWhile_cons, if_neg (by simp [hpq a hpa])]

theorem trimCharsBy_prefix (p : Char → Bool) (l : List Char) :
    trimCharsBy p l <+: List.dropWhile p l :=
  List.rdropWhile_prefix p (List.dropWhile p l)

theorem dropWhile_trimCharsBy (p : Char → Bool) (l : List Char) :
    List.dropWhile p (trimCharsBy p l) = trimCharsBy p l := by
  cases hlt : trimCharsBy p l with
  | nil => rfl
  | cons a t =>
    rw [List.dropWhile_cons]
    have hpre := trimCharsBy_prefix p l
    rw [hlt] at hpre
    obtain ⟨r, hr⟩ := hpre
    have hid := List.dropWhile_idempotent p l
    rw [← hr] at hid
    have hpa : p a = false := by
      by_contra hc
      have hpa2 : p a = true := by simpa using hc
      rw [List.cons_append, List.dropWhile_cons, if_pos hpa2] at hid
      have hle := dropWhile_length_le p (t ++ r)
      rw [hid, List.length_cons] at hle
      omega
    rw [if_neg (by simp [hpa])]

theorem dropWhile_trimCharsBy_reverse (p : Char → Bool) (l : List Char) :
    List.dropWhile p (trimCharsBy p l).reverse = (trimCharsBy p l).reverse := by
  unfold trimCharsBy
  rw [List.reverse_reverse]
  exact List.dropWhile_idempotent p _

theorem trimCharsBy_eq_self (p : Char → Bool) (L : List Char)
    (h1 : List.dropWhile p L = L)
    (h2 : List.dropWhile p L.reverse = L.reverse) : trimCharsBy p L = L := by
  unfold trimCharsBy
  rw [h1, h2, List.reverse_reverse]

/-- The source key TRIM(LOWER(x)) agrees with the spec key lowercase(trim(x))
on every stripped value: lowering a stripped string introduces no edge
spaces, so the SQL TRIM is a no-op. -/
theorem codeKey_pyStrip (s : String) : codeKey (pyStrip s) = specKey s := by
  unfold codeKey specKey sqlTrim sqlLower pyStrip
  congr 1
  apply trimCharsBy_eq_self
  · exact dropWhile_map_of_self Char.isWhitespace _ lowerChar _
      (dropWhile_trimCharsBy Char.isWhitespace s.data) lower_not_space
  · rw [← List.map_reverse]
    exact dropWhile_map_of_self Char.isWhitespace _ lowerChar _
      (dropWhile_trimCharsBy_reverse Char.isWhitespace s.data) lower_not_space

theorem codeKey_stripped (x : String) (h : pyStrip x = x) :
    codeKey x = specKey x := by
  have h2 := codeKey_pyStrip x
  rwa [h] at h2

theorem producer_conflict_iff (s : Store) (n p0 : String)
    (hps : s.producers.all (fun r =>
      (pyStrip r.name == r.name) && (pyStrip r.propertyName == r.propertyName)) = true) :
    s.producers.any (fun r => codeKey r.name == codeKey (pyStrip n) &&
      codeKey r.propertyName == codeKey (pyStrip p0)) = true ↔
    ∃ r ∈ s.producers, specKey r.name = specKey n ∧
      specKey r.propertyName = specKey p0 := by
  rw [List.any_eq_true]
  constructor
  · rintro ⟨r, hr, hc⟩
    have hall := List.all_eq_true.mp hps r hr
    rw [Bool.and_eq_true, beq_iff_eq, beq_iff_eq] at hall
    rw [Bool.and_eq_true, beq_iff_eq, beq_iff_eq,
        codeKey_stripped _ hall.1, codeKey_stripped _ hall.2,
        codeKey_pyStrip, codeKey_pyStrip] at hc
    exact ⟨r, hr, hc⟩
  · rintro ⟨r, hr, hc⟩
    have hall := List.all_eq_true.mp hps r hr
    rw [Bool.and_eq_true, beq_iff_eq, beq_iff_eq] at hall
    refine ⟨r, hr, ?_⟩
    rw [Bool.and_eq_true, beq_iff_eq, beq_iff_eq,
        codeKey_stripped _ hall.1, codeKey_stripped _ hall.2,
        codeKey_pyStrip, codeKey_pyStrip]
    exact hc

theorem driver_conflict_iff (s : Store) (n : String)
    (hds : s.drivers.all (fun r => pyStrip r.name == r.name) = true) :
    s.drivers.any (fun r => codeKey r.name == codeKey (pyStrip n)) = true ↔
    ∃ r ∈ s.drivers, specKey r.name = specKey n := by
  rw [List.any_eq_true]
  constructor
  · rintro ⟨r, hr, hc⟩
    have hall := List.all_eq_true.mp hds r hr
    rw [beq_iff_eq] at hall
    rw [beq_iff_eq, codeKey_stripped _ hall, codeKey_pyStrip] at hc
    exact ⟨r, hr, hc⟩
  · rintro ⟨r, hr, hc⟩
    have hall := List.all_eq_true.mp hds r hr
    rw [beq_iff_eq] at hall
    refine ⟨r, hr, ?_⟩
    rw [beq_iff_eq, codeKey_stripped _ hall, codeKey_pyStrip]
    exact hc

/-- C4: the explicit registry create endpoints (POST /api/producers and
POST /api/drivers), on a registry whose rows are stored stripped (as every
row the application writes is): (a) an absent, non-truthy, or
whitespace-only name is rejected 400 with the fixed empty-name message and
the store is untouched; (b) for a producer payload with a non-blank string
name and a string (or defaulted-empty) property, the call answers 409
Conflict and leaves the store unchanged exactly when an existing row
matches on the normalized key lowercase(trim(s)) of both name and
property, and otherwise answers 201 with the generated id and the trimmed
values, appending exactly one row; (c) likewise for drivers on the name
key alone. -/
theorem C4_explicit_create (s : Store) (payload : Dict)
    (hps : s.producers.all (fun r =>
      (pyStrip r.name == r.name) && (pyStrip r.propertyName == r.propertyName)) = true)
    (hds : s.drivers.all (fun r => pyStrip r.name == r.name) = true) :
    ((pyTruthy (dictGet payload "name") = false ∨
        (∃ n, dictGet payload "name" = PyVal.vstr n ∧ pyStrip n = "")) →
      add_single_producer payload s = (⟨400, msgBody producerEmptyMsg⟩, s) ∧
      add_single_driver payload s = (⟨400, msgBody driverEmptyMsg⟩, s)) ∧
    (∀ n p0, dictGet payload "name" = PyVal.vstr n → pyStrip n ≠ "" →
      dictGetD payload "property" (PyVal.vstr "") = PyVal.vstr p0 →
      ((∃ r ∈ s.producers, specKey r.name = specKey n ∧
          specKey r.propertyName = specKey p0) →
        add_single_producer payload s = (⟨409, msgBody producerConflictMsg⟩, s)) ∧
      ((¬ ∃ r ∈ s.producers, specKey r.name = specKey n ∧
          specKey r.propertyName = specKey p0) →
        add_single_producer payload s =
          (⟨201, Body.obj [("id", PyVal.vstr (genId s.nextId)),
                           ("name", PyVal.vstr (pyStrip n)),
                           ("property", PyVal.vstr (pyStrip p0))]⟩,
           { s with producers := s.producers ++ [⟨genId s.nextId, pyStrip n, pyStrip p0⟩],
                    nextId := s.nextId + 1 }))) ∧
    (∀ n, dictGet payload "name" = PyVal.vstr n → pyStrip n ≠ "" →
      ((∃ r ∈ s.drivers, specKey r.name = specKey n) →
        add_single_driver payload s = (⟨409, msgBody driverConflictMsg⟩, s)) ∧
      ((¬ ∃ r ∈ s.drivers, specKey r.name = specKey n) →
        add_single_driver payload s =
          (⟨201, Body.obj [("id", PyVal.vstr (genId s.nextId)),
                           ("name", PyVal.vstr (pyStrip n))]⟩,
           { s with drivers := s.drivers ++ [⟨genId s.nextId, pyStrip n⟩],
                    nextId := s.nextId + 1 }))) := by
  refine ⟨?_, ?_, ?_⟩
  · rintro (hfalse | ⟨n, hn, hstrip⟩)
    · constructor
      · unfold add_single_producer
        dsimp only
        rw [hfalse]
        rfl
      · unfold add_single_driver
        dsimp only
        rw [hfalse]
        rfl
    · by_cases hb : n = ""
      · subst hb
        have hfalse : pyTruthy (dictGet payload "name") = false := by
          rw [hn]; rfl
        constructor
        · unfold add_single_producer
          dsimp only
          rw [hfalse]
          rfl
        · unfold add_single_driver
          dsimp only
          rw [hfalse]
          rfl
      · have ht : pyTruthy (PyVal.vstr n) = true := by simp [pyTruthy, hb]
        constructor
        · unfold add_single_producer
          dsimp only
          rw [hn, ht]
          rw [if_neg (by decide)]
          dsimp only
          rw [hstrip]
          rfl
        · unfold add_single_driver
          dsimp only
          rw [hn, ht]
          rw [if_neg (by decide)]
          dsimp only
          rw [hstrip]
          rfl
  · intro n p0 hn hne hp
    have hn0 : n ≠ "" := fun h => hne (by rw [h]; rfl)
    have ht : pyTruthy (PyVal.vstr n) = true := by simp [pyTruthy, hn0]
    constructor
    · intro hex
      have hany := (producer_conflict_iff s n p0 hps).mpr hex
      unfold add_single_producer
      dsimp only
      rw [hn, hp, ht]
      rw [if_neg (by decide)]
      dsimp only
      rw [if_neg (by simpa using hne)]
      rw [hany]
      rfl
    · intro hnex
      have hany : s.producers.any (fun r =>
          codeKey r.name == codeKey (pyStrip n) &&
          codeKey r.propertyName == codeKey (pyStrip p0)) = false := by
        cases hb : s.producers.any (fun r =>
            codeKey r.name == codeKey (pyStrip n) &&
            codeKey r.propertyName == codeKey (pyStrip p0)) with
        | false => rfl
        | true => exact absurd ((producer_conflict_iff s n p0 hps).mp hb) hnex
      unfold add_single_producer
      dsimp only
      rw [hn, hp, ht]
      rw [if_neg (by decide)]
      dsimp only
      rw [if_neg (by simpa using hne)]
      rw [hany]
      rfl
  · intro n hn hne
    have hn0 : n ≠ "" := fun h => hne (by rw [h]; rfl)
    have ht : pyTruthy (PyVal.vstr n) = true := by simp [pyTruthy, hn0]
    constructor
    · intro hex
      have hany := (driver_conflict_iff s n hds).mpr hex
      unfold add_single_driver
      dsimp only
      rw [hn, ht]
      rw [if_neg (by decide)]
      dsimp only
      rw [if_neg (by simpa using hne)]
      rw [hany]
      rfl
    · intro hnex
      have hany : s.drivers.any (fun r =>
          codeKey r.name == codeKey (pyStrip n)) = false := by
        cases hb : s.drivers.any (fun r =>
            codeKey r.name == codeKey (pyStrip n)) with
        | false => rfl
        | true => exact absurd ((driver_conflict_iff s n hds).mp hb) hnex
      unfold add_single_driver
      dsimp only
      rw [hn, ht]
      rw [if_neg (by decide)]
      dsimp only
      rw [if_neg (by simpa using hne)]
      rw [hany]
      rfl

theorem C4_explicit_create_witness :
    add_single_producer
        [("name", PyVal.vstr "  maria  "), ("property", PyVal.vstr " FARM ")]
        ⟨[], [⟨"uuid-0", "Maria", "Farm"⟩], [⟨"uuid-1", "Bob"⟩], 2⟩ =
      (⟨409, msgBody producerConflictMsg⟩,
       ⟨[], [⟨"uuid-0", "Maria", "Farm"⟩], [⟨"uuid-1", "Bob"⟩], 2⟩) :=
  ((C4_explicit_create
      ⟨[], [⟨"uuid-0", "Maria", "Farm"⟩], [⟨"uuid-1", "Bob"⟩], 2⟩
      [("name", PyVal.vstr "  maria  "), ("property", PyVal.vstr " FARM ")]
      (by decide) (by decide)).2.1 "  maria  " " FARM "
      (by decide) (by decide) (by decide)).1
    ⟨⟨"uuid-0", "Maria", "Farm"⟩, by decide, by decide, by decide⟩

/-- An import entry the loop body handles without raising: either it has no
name key (and is skipped), or its name is a string and its property is a
string or absent. -/
def importItemWF (it : Dict) : Bool :=
  !(dictHas it "name") ||
    (match dictGet it "name", dictGetD it "property" (PyVal.vstr "") with
     | PyVal.vstr _, PyVal.vstr _ => true
     | _, _ => false)

/-- An import entry that reaches the INSERT: it has a name key whose string
value is non-blank after stripping. -/
def importItemCounted (it : Dict) : Bool :=
  dictHas it "name" &&
    (match dictGet it "name" with
     | PyVal.vstr nraw => !(pyStrip nraw == "")
     | _ => false)

theorem importLoop_spec (items : List Dict) :
    ∀ s a u, items.all importItemWF = true →
    ∃ s1 d e, importLoop items s a u = some (s1, a + d, u + e) ∧
      s1.producers.length = s.producers.length + d ∧
      d + e = items.countP importItemCounted := by
  induction items with
  | nil =>
    intro s a u _
    exact ⟨s, 0, 0, rfl, rfl, rfl⟩
  | cons it rest ih =>
    intro s a u hwf
    rw [List.all_cons, Bool.and_eq_true] at hwf
    obtain ⟨hit, hrest⟩ := hwf
    by_cases hhas : dictHas it "name" = true
    · unfold importItemWF at hit
      rw [hhas] at hit
      simp only [Bool.not_true, Bool.false_or] at hit
      cases hn : dictGet it "name" with
      | vstr nraw =>
        cases hp : dictGetD it "property" (PyVal.vstr "") with
        | vstr praw =>
          unfold importLoop
          rw [if_pos hhas, hn]
          dsimp only
          rw [hp]
          dsimp only
          by_cases hblank : (pyStrip nraw == "") = true
          · rw [if_pos hblank]
            have hcnt : importItemCounted it = false := by
              simp [importItemCounted, hhas, hn, hblank]
            obtain ⟨s1, d, e, h1, h2, h3⟩ := ih s a u hrest
            refine ⟨s1, d, e, h1, h2, ?_⟩
            rw [List.countP_cons, hcnt]
            simpa using h3
          · rw [if_neg hblank]
            rw [Bool.not_eq_true] at hblank
            have hcnt : importItemCounted it = true := by
              simp [importItemCounted, hhas, hn, hblank]
            by_cases hconf : (s.producers.any (fun r =>
                codeKey r.name == codeKey (pyStrip nraw) &&
                codeKey r.propertyName == codeKey (pyStrip praw))) = true
            · rw [if_pos hconf]
              obtain ⟨s1, d, e, h1, h2, h3⟩ := ih s a (u + 1) hrest
              refine ⟨s1, d, e + 1, ?_, h2, ?_⟩
              · rw [h1]
                have he : u + 1 + e = u + (e + 1) := by omega
                rw [he]
              · have hcc : List.countP importItemCounted (it :: rest) =
                    List.countP importItemCounted rest + 1 := by
                  simp [List.countP_cons, hcnt]
                rw [hcc]
                omega
            · rw [if_neg hconf]
              obtain ⟨s1, d, e, h1, h2, h3⟩ :=
                ih { s with producers := s.producers ++ [⟨genId s.nextId, pyStrip nraw, pyStrip praw⟩],
                            nextId := s.nextId + 1 } (a + 1) u hrest
              refine ⟨s1, d + 1, e, ?_, ?_, ?_⟩
              · rw [h1]
                have ha : a + 1 + d = a + (d + 1) := by omega
                rw [ha]
              · rw [h2]
                simp only [List.length_append, List.length_cons, List.length_nil]
                omega
              · have hcc : List.countP importItemCounted (it :: rest) =
                    List.countP importItemCounted rest + 1 := by
                  simp [List.countP_cons, hcnt]
                rw [hcc]
                omega
        | vnone => rw [hn, hp] at hit; exact Bool.noConfusion hit
        | vint m => rw [hn, hp] at hit; exact Bool.noConfusion hit
        | vdate dd => rw [hn, hp] at hit; exact Bool.noConfusion hit
      | vnone => rw [hn] at hit; exact Bool.noConfusion hit
      | vint m => rw [hn] at hit; exact Bool.noConfusion hit
      | vdate dd => rw [hn] at hit; exact Bool.noConfusion hit
    · have hhas' : dictHas it "name" = false := by
        cases hb : dictHas it "name" with
        | false => rfl
        | true => exact absurd hb hhas
      unfold importLoop
      rw [if_neg hhas]
      have hcnt : importItemCounted it = false := by
        simp [importItemCounted, hhas']
      obtain ⟨s1, d, e, h1, h2, h3⟩ := ih s a u hrest
      refine ⟨s1, d, e, h1, h2, ?_⟩
      rw [List.countP_cons, hcnt]
      simpa using h3

/-- C6: on a batch whose entries the loop handles without raising, the
batch endpoint answers 200 with the summary message built from an added
count and an existing count such that the producers table grew by exactly
the added count (added = rows actually inserted) and the two counts
together tally exactly the entries that reached the INSERT (those with
a non-blank string name) - duplicates are tallied, never errors; and
loading [{name: A}, {name: A}] into the empty store reports
1 added and 1 already-existing and leaves a single registry row. -/
theorem C6_import_batch (items : List Dict) (s : Store)
    (hwf : items.all importItemWF = true) :
    (∃ s1 a u, import_producer_names items s =
        (⟨200, msgBody (importResultMsg a u)⟩, s1) ∧
      s1.producers.length = s.producers.length + a ∧
      a + u = items.countP importItemCounted) ∧
    (import_producer_names [[("name", PyVal.vstr "A")], [("name", PyVal.vstr "A")]]
        Store.empty) =
      (⟨200, msgBody (importResultMsg 1 1)⟩,
       ⟨[], [⟨genId 0, "A", ""⟩], [], 1⟩) := by
  constructor
  · obtain ⟨s1, d, e, h1, h2, h3⟩ := importLoop_spec items s 0 0 hwf
    refine ⟨s1, d, e, ?_, h2, h3⟩
    unfold import_producer_names
    rw [h1]
    dsimp only
    rw [Nat.zero_add, Nat.zero_add]
  · decide

theorem C6_import_batch_witness :
    ((∃ s1 a u, import_producer_names
          [[("name", PyVal.vstr "A")], [("name", PyVal.vstr "A")]] Store.empty =
        (⟨200, msgBody (importResultMsg a u)⟩, s1) ∧
      s1.producers.length = Store.empty.producers.length + a ∧
      a + u = List.countP importItemCounted
        [[("name", PyVal.vstr "A")], [("name", PyVal.vstr "A")]]) ∧
    (import_producer_names [[("name", PyVal.vstr "A")], [("name", PyVal.vstr "A")]]
        Store.empty) =
      (⟨200, msgBody (importResultMsg 1 1)⟩,
       ⟨[], [⟨genId 0, "A", ""⟩], [], 1⟩)) :=
  C6_import_batch [[("name", PyVal.vstr "A")], [("name", PyVal.vstr "A")]]
    Store.empty (by decide)
